import Mathlib

/-!
# Verification of the hesabFun/ledger-service transaction engine

Shallow embedding of the ledger service (Go sources under `internal/service`,
`internal/repository`, `internal/db`) together with the parts of the
PostgreSQL layer that the Go code delegates to.  Pure Go functions become
Lean functions; the database is modelled as an explicit `Store` value that
every operation threads through.  Exact decimal arithmetic
(github.com/shopspring/decimal) is modelled by an integer mantissa together
with a base-ten exponent, exactly as in the Go library, and its meaning is
given by `Decimal.toRat`.

Identifiers (UUIDs in the Go code) are modelled as natural numbers: the
textual UUID parsing performed by the gRPC layer is plumbing that the spec
places out of scope, and every claim below concerns behaviour after the
identifiers have been parsed.
-/

/-- gRPC status codes used by the service layer (google.golang.org/grpc/codes).
The spec's error kinds map onto these: InvalidInput ↔ InvalidArgument,
NotFound ↔ NotFound, FailedPrecondition ↔ FailedPrecondition,
Internal ↔ Internal, Unavailable ↔ Unavailable. -/
inductive Code where
  | InvalidArgument
  | NotFound
  | FailedPrecondition
  | Internal
  | Unavailable
  deriving DecidableEq, Repr

/-- A gRPC status error as produced by `status.Error` / `status.Errorf`. -/
structure GrpcError where
  code : Code
  message : String
  deriving DecidableEq, Repr

deriving instance DecidableEq for Except

/-- Exact decimal number, as in github.com/shopspring/decimal:
the represented value is `value * 10 ^ exp`. -/
structure Decimal where
  value : Int
  exp : Int
  deriving DecidableEq, Repr

namespace Decimal

/-- The rational number denoted by a `Decimal`. -/
def toRat (d : Decimal) : ℚ := (d.value : ℚ) * (10 : ℚ) ^ d.exp

/-- `decimal.Zero`. -/
def zero : Decimal := ⟨0, 0⟩

/-- Rescaling both operands to the smaller exponent, as shopspring's
`RescalePair` does for `Add`/`Sub`/`Cmp` (downward rescaling is lossless). -/
def rescaleValue (d : Decimal) (e : Int) : Int :=
  d.value * 10 ^ (d.exp - e).toNat

/-- `Decimal.Add`: rescale to the common (smaller) exponent, add mantissas. -/
def add (d e : Decimal) : Decimal :=
  let b := min d.exp e.exp
  ⟨rescaleValue d b + rescaleValue e b, b⟩

/-- `Decimal.Sub`: rescale to the common (smaller) exponent, subtract mantissas. -/
def sub (d e : Decimal) : Decimal :=
  let b := min d.exp e.exp
  ⟨rescaleValue d b - rescaleValue e b, b⟩

/-- `Decimal.Equal` (`Cmp == 0`): exact comparison after rescaling. -/
def equal (d e : Decimal) : Bool :=
  let b := min d.exp e.exp
  rescaleValue d b == rescaleValue e b

theorem toRat_eq_rescale (d : Decimal) (e : Int) (h : e ≤ d.exp) :
    d.toRat = (rescaleValue d e : ℚ) * (10 : ℚ) ^ e := by
  unfold toRat rescaleValue
  push_cast
  rw [mul_assoc, ← zpow_natCast (10 : ℚ) (d.exp - e).toNat,
    Int.toNat_of_nonneg (by omega), ← zpow_add₀ (by norm_num : (10 : ℚ) ≠ 0)]
  ring_nf

theorem toRat_add (d e : Decimal) : (add d e).toRat = d.toRat + e.toRat := by
  unfold add
  rw [toRat_eq_rescale d (min d.exp e.exp) (min_le_left _ _),
    toRat_eq_rescale e (min d.exp e.exp) (min_le_right _ _)]
  unfold toRat
  push_cast
  ring

theorem toRat_sub (d e : Decimal) : (sub d e).toRat = d.toRat - e.toRat := by
  unfold sub
  rw [toRat_eq_rescale d (min d.exp e.exp) (min_le_left _ _),
    toRat_eq_rescale e (min d.exp e.exp) (min_le_right _ _)]
  unfold toRat
  push_cast
  ring

theorem equal_iff_toRat (d e : Decimal) : equal d e = true ↔ d.toRat = e.toRat := by
  unfold equal
  rw [toRat_eq_rescale d (min d.exp e.exp) (min_le_left _ _),
    toRat_eq_rescale e (min d.exp e.exp) (min_le_right _ _)]
  constructor
  · intro h
    rw [beq_iff_eq] at h
    rw [h]
  · intro h
    have h10 : ((10 : ℚ) ^ min d.exp e.exp) ≠ 0 :=
      zpow_ne_zero _ (by norm_num)
    have := mul_right_cancel₀ h10 h
    rw [beq_iff_eq]
    exact_mod_cast this

theorem toRat_zero : zero.toRat = 0 := by
  unfold zero toRat
  norm_num

/-! ## Parsing (`decimal.NewFromString`)

Faithful model of shopspring's `NewFromString`: an optional scientific
exponent introduced by the first `e`/`E` (parsed as a 32-bit signed
integer), at most one decimal point, and a mantissa parsed as an optionally
signed decimal integer.  Negative values parse successfully — the library
performs no sign restriction. -/

/-- Parse a nonempty all-digit character list as a natural number. -/
def parseDigits : List Char → Option Nat
  | [] => none
  | cs => go cs 0
where
  go : List Char → Nat → Option Nat
    | [], acc => some acc
    | c :: rest, acc =>
      if c.isDigit then go rest (acc * 10 + (c.toNat - '0'.toNat)) else none

/-- Go `strconv.ParseInt` / `big.Int.SetString` syntax for base 10:
an optional single sign followed by at least one digit. -/
def parseSignedInt (cs : List Char) : Option Int :=
  match cs with
  | '+' :: rest => (parseDigits rest).map (fun n => (n : Int))
  | '-' :: rest => (parseDigits rest).map (fun n => -(n : Int))
  | _ => (parseDigits cs).map (fun n => (n : Int))

/-- `decimal.NewFromString`; `none` models the error return. -/
def NewFromString (s : String) : Option Decimal :=
  let cs := s.toList
  -- strings.IndexAny(value, "Ee")
  let (mantissa, expPart) :=
    match cs.findIdx? (fun c => c == 'e' || c == 'E') with
    | some i => (cs.take i, some (cs.drop (i + 1)))
    | none => (cs, none)
  let expParsed : Option Int :=
    match expPart with
    | none => some 0
    | some p =>
      match parseSignedInt p with
      | none => none
      | some n =>
        -- strconv.ParseInt(..., 10, 32)
        if n < -(2 ^ 31) ∨ 2 ^ 31 - 1 < n then none else some n
  match expParsed with
  | none => none
  | some exp0 =>
    -- at most one decimal point
    if 1 < mantissa.countP (fun c => c == '.') then none
    else
      let (intChars, fracLen) :=
        match mantissa.findIdx? (fun c => c == '.') with
        | none => (mantissa, 0)
        | some p =>
          (mantissa.take p ++ mantissa.drop (p + 1), mantissa.length - (p + 1))
      match parseSignedInt intChars with
      | none => none
      | some v =>
        let exp := exp0 - fracLen
        -- final int32 range check on the exponent
        if exp < -(2 ^ 31) ∨ 2 ^ 31 - 1 < exp then none else some ⟨v, exp⟩

end Decimal

example : Decimal.NewFromString "100.00" = some ⟨10000, -2⟩ := by decide
example : Decimal.NewFromString "99.99" = some ⟨9999, -2⟩ := by decide
example : Decimal.NewFromString "-5" = some ⟨-5, 0⟩ := by decide
example : Decimal.NewFromString "0" = some ⟨0, 0⟩ := by decide
example : Decimal.NewFromString "" = none := by decide
example : Decimal.NewFromString "abc" = none := by decide
example : Decimal.NewFromString "1.2.3" = none := by decide
example : Decimal.NewFromString "1e2" = some ⟨1, 2⟩ := by decide
example : Decimal.NewFromString "1.5e-1" = some ⟨15, -2⟩ := by decide
example : Decimal.NewFromString ".5" = some ⟨5, -1⟩ := by decide
example : Decimal.equal (Decimal.add ⟨10000, -2⟩ ⟨0, 0⟩) ⟨100, 0⟩ = true := by decide

/-! ## Data model: the persistent store

One row type per table of the schema (`tenants` is omitted: no claim touches
the Tenant Directory).  The JSONB `metadata` column is omitted as protocol
plumbing; no claim mentions it.  Timestamps (`created_at`, `updated_at`,
`entry_date`) are natural numbers; `clock` is the store's transaction
timestamp source (`now()`), so all rows written by one transaction share a
timestamp, and `nextId` is the id allocator. -/

structure AccountRow where
  id : Nat
  tenantId : Nat
  accountNumber : String
  name : String
  description : Option String
  accountTypeId : Int
  currencyCode : String
  parentAccountId : Option Nat
  isActive : Bool
  createdAt : Nat
  updatedAt : Nat
  deriving DecidableEq, Repr

structure EntryRow where
  id : Nat
  tenantId : Nat
  referenceNumber : String
  description : String
  entryDate : Nat
  createdAt : Nat
  updatedAt : Nat
  deriving DecidableEq, Repr

structure LineRow where
  id : Nat
  journalEntryId : Nat
  accountId : Nat
  debit : Decimal
  credit : Decimal
  description : String
  createdAt : Nat
  deriving DecidableEq, Repr

structure BalanceRow where
  accountId : Nat
  debitBalance : Decimal
  creditBalance : Decimal
  updatedAt : Nat
  deriving DecidableEq, Repr

structure Store where
  accounts : List AccountRow
  entries : List EntryRow
  lines : List LineRow
  balances : List BalanceRow
  nextId : Nat
  clock : Nat
  deriving DecidableEq, Repr

/-- Modelled from the spec: the Row-Level Security policy on `accounts`
(`tenant_id = current_setting('app.current_tenant_id')::UUID`).  The tenant
context is set by `DB.WithTenant` / `DB.BeginTx` (src/internal/db/db.go);
the policies themselves live in the migrations, which are not under `src/`,
so they are modelled from the spec's Access Gate contract (§4.2): scoped
reads and writes are filtered to the bound tenant. -/
def visibleAccounts (st : Store) (tenantID : Nat) : List AccountRow :=
  st.accounts.filter (fun a => a.tenantId == tenantID)

/-- Modelled from the spec: the RLS policy on `journal_entries` (see
`visibleAccounts`). -/
def visibleEntries (st : Store) (tenantID : Nat) : List EntryRow :=
  st.entries.filter (fun e => e.tenantId == tenantID)

/-- Modelled from the spec: RLS on `journal_entry_lines` is inherited through
the owning journal entry (§4.2: JournalEntryLine participates in isolation
transitively). -/
def visibleLines (st : Store) (tenantID : Nat) : List LineRow :=
  st.lines.filter (fun l =>
    st.entries.any (fun e => e.id == l.journalEntryId && e.tenantId == tenantID))

/-- Modelled from the spec: RLS on `account_balances` is inherited through
the owning account. -/
def visibleBalances (st : Store) (tenantID : Nat) : List BalanceRow :=
  st.balances.filter (fun b =>
    st.accounts.any (fun a => a.id == b.accountId && a.tenantId == tenantID))

/-! ## Repository-layer parameter and domain types
(internal/repository: structs `CreateAccountParams`,
`CreateJournalEntryParams`, `CreateJournalEntryLineParams`, `JournalEntry`).
The repository `Account`, `AccountBalance` and `JournalEntryLine` structs
are field-for-field copies of the scanned rows, so the row types above are
reused for them. -/

structure CreateAccountParams where
  accountNumber : String
  name : String
  description : Option String
  accountTypeId : Int
  currencyCode : String
  parentAccountID : Option Nat
  deriving DecidableEq, Repr

structure CreateJournalEntryLineParams where
  accountID : Nat
  debit : Decimal
  credit : Decimal
  description : String
  deriving DecidableEq, Repr

structure CreateJournalEntryParams where
  referenceNumber : String
  description : String
  entryDate : Nat
  lines : List CreateJournalEntryLineParams
  deriving DecidableEq, Repr

structure JournalEntry where
  id : Nat
  tenantId : Nat
  referenceNumber : String
  description : String
  entryDate : Nat
  lines : List LineRow
  createdAt : Nat
  updatedAt : Nat
  deriving DecidableEq, Repr

/-! ## The stored procedures (not under `src/`; modelled from the spec) -/

/-- Modelled from the spec: the parent-reference check of the PostgreSQL
function `create_account` (§4.3): an optional parent must resolve to an
existing account under the tenant's scope. -/

def parent_account_ok (st : Store) (tenantID : Nat) : Option Nat → Bool
  | none => true
  | some pid => (visibleAccounts st tenantID).any (fun a => a.id == pid)

/-- Modelled from the spec: the PostgreSQL function `create_account`
(§4.3): validates the optional parent reference, then atomically inserts
the account row and its zero-initialised `account_balances` row. -/
def create_account (st : Store) (tenantID : Nat) (p : CreateAccountParams) :
    Except String (Store × Nat) :=
  if !parent_account_ok st tenantID p.parentAccountID then .error "parent account not found"
  else
    let aid := st.nextId
    let acct : AccountRow :=
      { id := aid, tenantId := tenantID, accountNumber := p.accountNumber,
        name := p.name, description := p.description,
        accountTypeId := p.accountTypeId, currencyCode := p.currencyCode,
        parentAccountId := p.parentAccountID, isActive := true,
        createdAt := st.clock, updatedAt := st.clock }
    let bal : BalanceRow :=
      { accountId := aid, debitBalance := Decimal.zero,
        creditBalance := Decimal.zero, updatedAt := st.clock }
    .ok ({ st with
            accounts := acct :: st.accounts,
            balances := bal :: st.balances,
            nextId := st.nextId + 1,
            clock := st.clock + 1 }, aid)

/-- One balance update of `create_journal_entry`: add the line's debit and
credit to the referenced account's balance row (`UPDATE account_balances SET
debit_balance = debit_balance + ..., credit_balance = credit_balance + ...
WHERE account_id = ...`). -/
def bumpBalance (now : Nat) (l : LineRow) (b : BalanceRow) : BalanceRow :=
  if b.accountId = l.accountId then
    { b with debitBalance := Decimal.add b.debitBalance l.debit,
             creditBalance := Decimal.add b.creditBalance l.credit,
             updatedAt := now }
  else b

/-- Apply the balance updates of all lines, in order. -/
def applyLines (now : Nat) (bs : List BalanceRow) (ls : List LineRow) : List BalanceRow :=
  ls.foldl (fun acc l => acc.map (bumpBalance now l)) bs

/-- The line rows inserted for a journal entry, in submission order, with
sequentially allocated ids and the transaction timestamp. -/
def mkLines (eid clock : Nat) : Nat → List CreateJournalEntryLineParams → List LineRow
  | _, [] => []
  | i, l :: rest =>
    { id := eid + 1 + i, journalEntryId := eid, accountId := l.accountID,
      debit := l.debit, credit := l.credit, description := l.description,
      createdAt := clock } :: mkLines eid clock (i + 1) rest

/-- Modelled from the spec: the PostgreSQL function `create_journal_entry`
(§4.4, steps 2-5): requires at least two lines, requires every line's
account to resolve under the tenant's scope (foreign key under RLS),
evaluates the aggregate balance check `sum(debits) == sum(credits)` with
exact decimal arithmetic and raises "entry not balanced" on mismatch, and
otherwise inserts the entry header, all line rows, and adds every line's
debit/credit to the referenced account's balance row, all in the caller's
transaction (an error leaves the store untouched: the transaction rolls
back). -/
def create_journal_entry (st : Store) (tenantID : Nat) (p : CreateJournalEntryParams) :
    Except String (Store × Nat) :=
  if p.lines.length < 2 then .error "journal entry must have at least two lines"
  else if !(p.lines.all (fun l => (visibleAccounts st tenantID).any (fun a => a.id == l.accountID))) then
    .error "account not found for journal entry line"
  else
    let sumDebit := p.lines.foldl (fun s l => Decimal.add s l.debit) Decimal.zero
    let sumCredit := p.lines.foldl (fun s l => Decimal.add s l.credit) Decimal.zero
    if !Decimal.equal sumDebit sumCredit then .error "entry not balanced"
    else
      let eid := st.nextId
      let entry : EntryRow :=
        { id := eid, tenantId := tenantID, referenceNumber := p.referenceNumber,
          description := p.description, entryDate := p.entryDate,
          createdAt := st.clock, updatedAt := st.clock }
      let newLines := mkLines eid st.clock 0 p.lines
      .ok ({ st with
              entries := entry :: st.entries,
              lines := newLines ++ st.lines,
              balances := applyLines st.clock st.balances newLines,
              nextId := st.nextId + 1 + p.lines.length,
              clock := st.clock + 1 }, eid)

/-- Store well-formedness: ids are below the allocator, primary keys are
unique, and `account_balances` is in 1:1 correspondence with `accounts`
(the spec's §3 invariant "AccountBalance exists iff Account exists"). -/
def StoreWF (st : Store) : Prop :=
  (∀ a ∈ st.accounts, a.id < st.nextId) ∧
  (∀ e ∈ st.entries, e.id < st.nextId) ∧
  (∀ l ∈ st.lines, l.id < st.nextId) ∧
  (st.accounts.map (fun a => a.id)).Nodup ∧
  (st.entries.map (fun e => e.id)).Nodup ∧
  (st.balances.map (fun b => b.accountId)).Nodup ∧
  (∀ b ∈ st.balances, ∃ a ∈ st.accounts, a.id = b.accountId) ∧
  (∀ a ∈ st.accounts, ∃ b ∈ st.balances, b.accountId = a.id)

instance (st : Store) : Decidable (StoreWF st) := by
  unfold StoreWF
  infer_instance

/-! ## Ordering relations of the SQL `ORDER BY` clauses -/

/-- `ORDER BY created_at DESC` on `accounts` (AccountRepository.List). -/
def accountLe (a b : AccountRow) : Prop := b.createdAt ≤ a.createdAt

instance : DecidableRel accountLe := fun a b => by
  unfold accountLe
  infer_instance

instance : IsTotal AccountRow accountLe := ⟨by
  intro a b
  unfold accountLe
  omega⟩

instance : IsTrans AccountRow accountLe := ⟨by
  intro a b c
  unfold accountLe
  omega⟩

/-- `ORDER BY je.entry_date DESC, je.created_at DESC` (JournalRepository.List). -/
def entryLe (a b : EntryRow) : Prop :=
  b.entryDate < a.entryDate ∨ (a.entryDate = b.entryDate ∧ b.createdAt ≤ a.createdAt)

instance : DecidableRel entryLe := fun a b => by
  unfold entryLe
  infer_instance

instance : IsTotal EntryRow entryLe := ⟨by
  intro a b
  unfold entryLe
  omega⟩

instance : IsTrans EntryRow entryLe := ⟨by
  intro a b c
  unfold entryLe
  omega⟩

/-- `ORDER BY created_at` (ascending) on `journal_entry_lines`
(JournalRepository.getLinesByJournalEntryID). -/
def lineLe (a b : LineRow) : Prop := a.createdAt ≤ b.createdAt

instance : DecidableRel lineLe := fun a b => by
  unfold lineLe
  infer_instance

instance : IsTotal LineRow lineLe := ⟨by
  intro a b
  unfold lineLe
  omega⟩

instance : IsTrans LineRow lineLe := ⟨by
  intro a b c
  unfold lineLe
  omega⟩

/-! ## AccountRepository (src/unnamed/part_001) -/

namespace AccountRepository

/-- `AccountRepository.GetByID`: scoped query `SELECT ... FROM accounts WHERE
id = $1` under the tenant's RLS context; `pgx.ErrNoRows` becomes
"account not found". -/
def GetByID (st : Store) (tenantID accountID : Nat) : Except String AccountRow :=
  match (visibleAccounts st tenantID).find? (fun a => a.id == accountID) with
  | some a => .ok a
  | none => .error "account not found"

/-- `AccountRepository.GetBalance`: scoped query `SELECT ... FROM
account_balances WHERE account_id = $1`. -/
def GetBalance (st : Store) (tenantID accountID : Nat) : Except String BalanceRow :=
  match (visibleBalances st tenantID).find? (fun b => b.accountId == accountID) with
  | some b => .ok b
  | none => .error "balance not found for account"

/-- `AccountRepository.Create`: transaction scoped to the tenant, `SELECT
create_account(...)`, commit, then fetch the created account. -/
def Create (st : Store) (tenantID : Nat) (params : CreateAccountParams) :
    Store × Except String AccountRow :=
  match create_account st tenantID params with
  | .error e => (st, .error ("failed to create account: " ++ e))
  | .ok (st', accountID) =>
    match GetByID st' tenantID accountID with
    | .error e => (st', .error e)
    | .ok a => (st', .ok a)

end AccountRepository

/-- `AccountRepository.List`: scoped query with optional `account_type_id` /
`currency_code` filters, `COUNT(*)` over the same filters, `ORDER BY
created_at DESC LIMIT $n OFFSET $m`. -/
def AccountRepository.List (st : Store) (tenantID : Nat) (accountTypeID : Option Int)
    (currencyCode : Option String) (limit offset : Int) :
    List AccountRow × Nat :=
  let base := (visibleAccounts st tenantID).filter (fun a =>
    (match accountTypeID with
     | none => true
     | some t => a.accountTypeId == t) &&
    (match currencyCode with
     | none => true
     | some c => a.currencyCode == c))
  let totalCount := base.length
  let sorted := List.insertionSort accountLe base
  ((sorted.drop offset.toNat).take limit.toNat, totalCount)

/-! ## JournalRepository (second half of src/internal/service/ledger.go) -/

namespace JournalRepository

/-- `JournalRepository.getLinesByJournalEntryID`: `SELECT ... FROM
journal_entry_lines WHERE journal_entry_id = $1 ORDER BY created_at`.
`ORDER BY created_at` alone does not determine the order of rows sharing a
timestamp; this deterministic model resolves such ties by table (insertion)
order — one execution the store is allowed to produce.  `LinesQueryResult`
below characterises every execution the query text permits. -/
def getLinesByJournalEntryID (st : Store) (tenantID journalEntryID : Nat) : List LineRow :=
  List.insertionSort lineLe
    ((visibleLines st tenantID).filter (fun l => l.journalEntryId == journalEntryID))

/-- All row orders the line query `... ORDER BY created_at` may return: any
permutation of the matching rows that is sorted by `created_at`. -/
def LinesQueryResult (st : Store) (tenantID journalEntryID : Nat) (res : List LineRow) : Prop :=
  res.Perm ((visibleLines st tenantID).filter (fun l => l.journalEntryId == journalEntryID)) ∧
  res.Pairwise lineLe

/-- `JournalRepository.GetByID`: scoped entry lookup, then the lines query. -/
def GetByID (st : Store) (tenantID journalEntryID : Nat) : Except String JournalEntry :=
  match (visibleEntries st tenantID).find? (fun e => e.id == journalEntryID) with
  | none => .error "journal entry not found"
  | some e =>
    .ok { id := e.id, tenantId := e.tenantId, referenceNumber := e.referenceNumber,
          description := e.description, entryDate := e.entryDate,
          lines := getLinesByJournalEntryID st tenantID e.id,
          createdAt := e.createdAt, updatedAt := e.updatedAt }

/-- `JournalRepository.Create`: transaction scoped to the tenant, `SELECT
create_journal_entry(...)`, commit, then fetch the created entry.
`fetchFault` models a fault (caller cancellation, lost connection) that hits
the post-commit `r.GetByID` read-back: the commit is already durably
recorded, but an error is returned. -/
def Create (st : Store) (tenantID : Nat) (params : CreateJournalEntryParams)
    (fetchFault : Bool) : Store × Except String JournalEntry :=
  match create_journal_entry st tenantID params with
  | .error e => (st, .error ("failed to create journal entry: " ++ e))
  | .ok (st', journalEntryID) =>
    if fetchFault then
      (st', .error "failed to set tenant context: context canceled")
    else
      match GetByID st' tenantID journalEntryID with
      | .error e => (st', .error e)
      | .ok entry => (st', .ok entry)

/-- The `FROM journal_entries je [INNER JOIN journal_entry_lines jel ON
je.id = jel.journal_entry_id WHERE jel.account_id = $1]` clause of
`JournalRepository.List`, under the tenant's RLS context: without an account
filter every visible entry, with one a copy of the entry per matching line
(deduplicated later by `SELECT DISTINCT`). -/
def entriesJoinedByAccount (st : Store) (tenantID : Nat) (accountID : Option Nat) :
    List EntryRow :=
  match accountID with
  | none => visibleEntries st tenantID
  | some a =>
    (visibleEntries st tenantID).flatMap (fun je =>
      ((visibleLines st tenantID).filter
        (fun l => l.journalEntryId == je.id && l.accountId == a)).map (fun _ => je))

/-- The inclusive `entry_date` bound filters (`je.entry_date >= $f`,
`je.entry_date <= $t`) of `JournalRepository.List`. -/
def entryDateOk (fromDate toDate : Option Nat) (je : EntryRow) : Bool :=
  (match fromDate with
   | none => true
   | some f => decide (f ≤ je.entryDate)) &&
  (match toDate with
   | none => true
   | some t => decide (je.entryDate ≤ t))

end JournalRepository

/-- `JournalRepository.List`: `SELECT DISTINCT je.* FROM journal_entries je`,
optionally `INNER JOIN journal_entry_lines jel ON je.id =
jel.journal_entry_id WHERE jel.account_id = $1`, optional inclusive
`entry_date` bounds, `COUNT(DISTINCT je.id)` over the same filters, `ORDER
BY je.entry_date DESC, je.created_at DESC LIMIT $n OFFSET $m`. -/
def JournalRepository.List (st : Store) (tenantID : Nat) (accountID : Option Nat)
    (fromDate toDate : Option Nat) (limit offset : Int) :
    List EntryRow × Nat :=
  let dated := (JournalRepository.entriesJoinedByAccount st tenantID accountID).filter
    (JournalRepository.entryDateOk fromDate toDate)
  let totalCount := ((dated.map (fun e => e.id)).dedup).length
  let sorted := List.insertionSort entryLe dated.dedup
  ((sorted.drop offset.toNat).take limit.toNat, totalCount)

/-! ## Service layer (LedgerService, src/internal/service/ledger.go)

Request and response types mirror the protobuf messages, with identifiers
already parsed (the `uuid.Parse` steps reject malformed identifier strings
with `InvalidArgument` before anything else happens; that plumbing is out
of the spec's scope).  Balance amounts in `GetAccountBalanceResponse` are
kept as `Decimal` values rather than their `String()` images. -/

structure PbJournalLine where
  accountId : Nat
  debit : String
  credit : String
  description : String
  deriving DecidableEq, Repr

structure CreateJournalEntryRequest where
  tenantId : Nat
  referenceNumber : String
  description : String
  entryDate : Nat
  lines : List PbJournalLine
  deriving DecidableEq, Repr

structure CreateJournalEntryResponse where
  journalEntryId : Nat
  tenantId : Nat
  referenceNumber : String
  entryDate : Nat
  createdAt : Nat
  deriving DecidableEq, Repr

structure CreateAccountRequest where
  tenantId : Nat
  accountNumber : String
  name : String
  description : String
  accountTypeId : Int
  currencyCode : String
  parentAccountId : Option Nat
  deriving DecidableEq, Repr

structure CreateAccountResponse where
  accountId : Nat
  tenantId : Nat
  accountNumber : String
  name : String
  createdAt : Nat
  deriving DecidableEq, Repr

structure GetAccountBalanceResponse where
  accountId : Nat
  debitBalance : Decimal
  creditBalance : Decimal
  netBalance : Decimal
  updatedAt : Nat
  deriving DecidableEq, Repr

structure ListAccountsRequest where
  tenantId : Nat
  accountTypeId : Option Int
  currencyCode : Option String
  page : Int
  pageSize : Int
  deriving DecidableEq, Repr

structure ListJournalEntriesRequest where
  tenantId : Nat
  accountId : Option Nat
  fromDate : Option Nat
  toDate : Option Nat
  page : Int
  pageSize : Int
  deriving DecidableEq, Repr

namespace LedgerService

/-- The per-line validation loop of `CreateJournalEntry` (ledger.go:239-262):
parse each line's debit and credit, failing with `InvalidArgument` and the
offending line's index on the first malformed amount. -/
def parseLinesFrom : Nat → List PbJournalLine → Except GrpcError (List CreateJournalEntryLineParams)
  | _, [] => .ok []
  | i, l :: rest =>
    match Decimal.NewFromString l.debit with
    | none => .error ⟨.InvalidArgument, s!"invalid debit amount at line {i}"⟩
    | some d =>
      match Decimal.NewFromString l.credit with
      | none => .error ⟨.InvalidArgument, s!"invalid credit amount at line {i}"⟩
      | some c =>
        match parseLinesFrom (i + 1) rest with
        | .error e => .error e
        | .ok ps =>
          .ok ({ accountID := l.accountId, debit := d, credit := c,
                 description := l.description } :: ps)

/-- `LedgerService.CreateJournalEntry` (ledger.go:229-291). -/
def CreateJournalEntry (st : Store) (fetchFault : Bool) (req : CreateJournalEntryRequest) :
    Store × Except GrpcError CreateJournalEntryResponse :=
  if req.lines.length < 2 then
    (st, .error ⟨.InvalidArgument, "journal entry must have at least two lines"⟩)
  else
    match parseLinesFrom 0 req.lines with
    | .error e => (st, .error e)
    | .ok lines =>
      let params : CreateJournalEntryParams :=
        { referenceNumber := req.referenceNumber, description := req.description,
          entryDate := req.entryDate, lines := lines }
      match JournalRepository.Create st req.tenantId params fetchFault with
      | (st', .error e) =>
        (st', .error ⟨.Internal, "failed to create journal entry: " ++ e⟩)
      | (st', .ok entry) =>
        (st', .ok { journalEntryId := entry.id, tenantId := entry.tenantId,
                    referenceNumber := entry.referenceNumber,
                    entryDate := entry.entryDate, createdAt := entry.createdAt })

/-- `LedgerService.GetJournalEntry` (ledger.go:294-313). -/
def GetJournalEntry (st : Store) (tenantId journalEntryId : Nat) :
    Except GrpcError JournalEntry :=
  match JournalRepository.GetByID st tenantId journalEntryId with
  | .error e => .error ⟨.NotFound, "journal entry not found: " ++ e⟩
  | .ok e => .ok e

/-- `LedgerService.GetAccount` (ledger.go:131-150). -/
def GetAccount (st : Store) (tenantId accountId : Nat) : Except GrpcError AccountRow :=
  match AccountRepository.GetByID st tenantId accountId with
  | .error e => .error ⟨.NotFound, "account not found: " ++ e⟩
  | .ok a => .ok a

/-- `LedgerService.GetAccountBalance` (ledger.go:201-226): fetch the balance
row, compute `netBalance := balance.DebitBalance.Sub(balance.CreditBalance)`. -/
def GetAccountBalance (st : Store) (tenantId accountId : Nat) :
    Except GrpcError GetAccountBalanceResponse :=
  match AccountRepository.GetBalance st tenantId accountId with
  | .error e => .error ⟨.NotFound, "balance not found: " ++ e⟩
  | .ok b =>
    let netBalance := Decimal.sub b.debitBalance b.creditBalance
    .ok { accountId := b.accountId, debitBalance := b.debitBalance,
          creditBalance := b.creditBalance, netBalance := netBalance,
          updatedAt := b.updatedAt }

/-- `LedgerService.CreateAccount` (ledger.go:83-128). -/
def CreateAccount (st : Store) (req : CreateAccountRequest) :
    Store × Except GrpcError CreateAccountResponse :=
  if req.accountNumber = "" then
    (st, .error ⟨.InvalidArgument, "account number is required"⟩)
  else if req.name = "" then
    (st, .error ⟨.InvalidArgument, "account name is required"⟩)
  else
    let params : CreateAccountParams :=
      { accountNumber := req.accountNumber, name := req.name,
        description := if req.description = "" then none else some req.description,
        accountTypeId := req.accountTypeId, currencyCode := req.currencyCode,
        parentAccountID := req.parentAccountId }
    match AccountRepository.Create st req.tenantId params with
    | (st', .error e) => (st', .error ⟨.Internal, "failed to create account: " ++ e⟩)
    | (st', .ok a) =>
      (st', .ok { accountId := a.id, tenantId := a.tenantId,
                  accountNumber := a.accountNumber, name := a.name,
                  createdAt := a.createdAt })

/-- `LedgerService.ListAccounts` (ledger.go:153-198), including the
pagination clamping (ledger.go:159-172). -/
def ListAccounts (st : Store) (req : ListAccountsRequest) : List AccountRow × Nat :=
  let page := if req.page < 1 then 1 else req.page
  let pageSize0 := if req.pageSize < 1 then 50 else req.pageSize
  let pageSize := if pageSize0 > 100 then 100 else pageSize0
  let offset := (page - 1) * pageSize
  AccountRepository.List st req.tenantId req.accountTypeId req.currencyCode pageSize offset

/-- `LedgerService.ListJournalEntries` (ledger.go:316-370), including the
pagination clamping (ledger.go:322-335). -/
def ListJournalEntries (st : Store) (req : ListJournalEntriesRequest) :
    List EntryRow × Nat :=
  let page := if req.page < 1 then 1 else req.page
  let pageSize0 := if req.pageSize < 1 then 50 else req.pageSize
  let pageSize := if pageSize0 > 100 then 100 else pageSize0
  let offset := (page - 1) * pageSize
  JournalRepository.List st req.tenantId req.accountId req.fromDate req.toDate pageSize offset

end LedgerService

/-! ## Spec-side reference definitions and concrete witness data -/

/-- The spec's effective page (§4.3, stated from the spec's words, for
comparison with the code): "page < 1 is clamped to 1". -/
def specPage (page : Int) : Int := if page < 1 then 1 else page

/-- The spec's effective page size (§4.3, stated from the spec's words):
"page_size < 1 clamped to 50; page_size > 100 clamped to 100". -/
def specPageSize (pageSize : Int) : Int :=
  if pageSize < 1 then 50 else if pageSize > 100 then 100 else pageSize

/-- Tenant 1's "Cash" account row, used by several concrete checks below. -/
def acctCash : AccountRow :=
  { id := 1, tenantId := 1, accountNumber := "1000", name := "Cash",
    description := none, accountTypeId := 1, currencyCode := "USD",
    parentAccountId := none, isActive := true, createdAt := 0, updatedAt := 0 }

/-- A small well-formed store: tenant 1 owns accounts 1 ("Cash") and
2 ("Revenue") with zero balances; tenant 2 owns account 3. -/
def twoAccountStore : Store :=
  { accounts :=
      [ acctCash,
        { id := 2, tenantId := 1, accountNumber := "4000", name := "Revenue",
          description := none, accountTypeId := 4, currencyCode := "USD",
          parentAccountId := none, isActive := true, createdAt := 1, updatedAt := 1 },
        { id := 3, tenantId := 2, accountNumber := "1000", name := "Cash",
          description := none, accountTypeId := 1, currencyCode := "USD",
          parentAccountId := none, isActive := true, createdAt := 2, updatedAt := 2 } ],
    entries := [],
    lines := [],
    balances :=
      [ { accountId := 1, debitBalance := Decimal.zero, creditBalance := Decimal.zero,
          updatedAt := 0 },
        { accountId := 2, debitBalance := Decimal.zero, creditBalance := Decimal.zero,
          updatedAt := 1 },
        { accountId := 3, debitBalance := Decimal.zero, creditBalance := Decimal.zero,
          updatedAt := 2 } ],
    nextId := 4,
    clock := 10 }

/-! ## C4 — minimum line count -/

/-- C4: a `CreateJournalEntry` call with zero or one lines fails with the
`InvalidArgument` (spec kind InvalidInput) status "journal entry must have
at least two lines", before any storage access: the returned store is the
input store, so no journal entry, line, or balance change is persisted. -/
theorem c4_min_lines (st : Store) (fetchFault : Bool) (req : CreateJournalEntryRequest)
    (h : req.lines.length = 0 ∨ req.lines.length = 1) :
    LedgerService.CreateJournalEntry st fetchFault req =
      (st, .error ⟨.InvalidArgument, "journal entry must have at least two lines"⟩) := by
  have h2 : req.lines.length < 2 := by omega
  unfold LedgerService.CreateJournalEntry
  simp [h2]

theorem c4_min_lines_witness :
    LedgerService.CreateJournalEntry twoAccountStore false
      { tenantId := 1, referenceNumber := "R1", description := "d", entryDate := 5,
        lines := [] } =
      (twoAccountStore,
        .error ⟨.InvalidArgument, "journal entry must have at least two lines"⟩) :=
  c4_min_lines twoAccountStore false _ (Or.inl rfl)

/-! ## C7 — pagination clamping -/

/-- C7: both `ListAccounts` and `ListJournalEntries` call their store query
with exactly the spec's effective pagination: page clamped to 1 when below
1, page size defaulted to 50 when below 1 and capped at 100, and row offset
`(page - 1) * page_size`. -/
theorem c7_pagination_clamping (st : Store) (reqA : ListAccountsRequest)
    (reqJ : ListJournalEntriesRequest) :
    LedgerService.ListAccounts st reqA =
      AccountRepository.List st reqA.tenantId reqA.accountTypeId reqA.currencyCode
        (specPageSize reqA.pageSize) ((specPage reqA.page - 1) * specPageSize reqA.pageSize) ∧
    LedgerService.ListJournalEntries st reqJ =
      JournalRepository.List st reqJ.tenantId reqJ.accountId reqJ.fromDate reqJ.toDate
        (specPageSize reqJ.pageSize) ((specPage reqJ.page - 1) * specPageSize reqJ.pageSize) := by
  have hsize : ∀ ps : Int,
      (if (if ps < 1 then (50 : Int) else ps) > 100 then (100 : Int)
       else if ps < 1 then 50 else ps) = specPageSize ps := by
    intro ps
    unfold specPageSize
    split_ifs <;> omega
  constructor
  · show AccountRepository.List st reqA.tenantId reqA.accountTypeId reqA.currencyCode
      (if (if reqA.pageSize < 1 then (50 : Int) else reqA.pageSize) > 100 then (100 : Int)
       else if reqA.pageSize < 1 then 50 else reqA.pageSize)
      (((if reqA.page < 1 then 1 else reqA.page) - 1) *
        (if (if reqA.pageSize < 1 then (50 : Int) else reqA.pageSize) > 100 then (100 : Int)
         else if reqA.pageSize < 1 then 50 else reqA.pageSize)) = _
    rw [hsize]
    rfl
  · show JournalRepository.List st reqJ.tenantId reqJ.accountId reqJ.fromDate reqJ.toDate
      (if (if reqJ.pageSize < 1 then (50 : Int) else reqJ.pageSize) > 100 then (100 : Int)
       else if reqJ.pageSize < 1 then 50 else reqJ.pageSize)
      (((if reqJ.page < 1 then 1 else reqJ.page) - 1) *
        (if (if reqJ.pageSize < 1 then (50 : Int) else reqJ.pageSize) > 100 then (100 : Int)
         else if reqJ.pageSize < 1 then 50 else reqJ.pageSize)) = _
    rw [hsize]
    rfl

/-! ## C10 — net balance -/

/-- C10: every successful `GetAccountBalance` response satisfies
net_balance = debit_balance - credit_balance with exact decimal
arithmetic. -/
theorem c10_net_balance (st : Store) (tenantId accountId : Nat)
    (resp : GetAccountBalanceResponse)
    (h : LedgerService.GetAccountBalance st tenantId accountId = .ok resp) :
    resp.netBalance.toRat = resp.debitBalance.toRat - resp.creditBalance.toRat := by
  unfold LedgerService.GetAccountBalance at h
  cases hb : AccountRepository.GetBalance st tenantId accountId with
  | error e => rw [hb] at h; exact absurd h (by simp)
  | ok b =>
    rw [hb] at h
    simp only [Except.ok.injEq] at h
    subst h
    exact Decimal.toRat_sub b.debitBalance b.creditBalance

theorem c10_net_balance_witness :
    ({ accountId := 1, debitBalance := Decimal.zero, creditBalance := Decimal.zero,
       netBalance := Decimal.sub Decimal.zero Decimal.zero,
       updatedAt := 0 } : GetAccountBalanceResponse).netBalance.toRat =
      ({ accountId := 1, debitBalance := Decimal.zero, creditBalance := Decimal.zero,
         netBalance := Decimal.sub Decimal.zero Decimal.zero,
         updatedAt := 0 } : GetAccountBalanceResponse).debitBalance.toRat -
      ({ accountId := 1, debitBalance := Decimal.zero, creditBalance := Decimal.zero,
         netBalance := Decimal.sub Decimal.zero Decimal.zero,
         updatedAt := 0 } : GetAccountBalanceResponse).creditBalance.toRat :=
  c10_net_balance twoAccountStore 1 1 _ (by rfl)

/-! ## Helper lemmas about the line-validation loop and decimal sums -/

theorem parseLinesFrom_ok_length (ls : List PbJournalLine) :
    ∀ (k : Nat) (ps : List CreateJournalEntryLineParams),
      LedgerService.parseLinesFrom k ls = .ok ps → ps.length = ls.length := by
  induction ls with
  | nil =>
    intro k ps h
    unfold LedgerService.parseLinesFrom at h
    simp only [Except.ok.injEq] at h
    subst h
    rfl
  | cons l rest ih =>
    intro k ps h
    unfold LedgerService.parseLinesFrom at h
    cases hd : Decimal.NewFromString l.debit with
    | none => rw [hd] at h; exact absurd h (by simp)
    | some d =>
      rw [hd] at h
      cases hc : Decimal.NewFromString l.credit with
      | none => rw [hc] at h; exact absurd h (by simp)
      | some c =>
        rw [hc] at h
        cases hr : LedgerService.parseLinesFrom (k + 1) rest with
        | error e => rw [hr] at h; exact absurd h (by simp)
        | ok ps' =>
          rw [hr] at h
          simp only [Except.ok.injEq] at h
          subst h
          simp [ih (k + 1) ps' hr]

theorem parseLinesFrom_error_at (ls : List PbJournalLine) :
    ∀ (k i : Nat) (line : PbJournalLine),
      ls[i]? = some line →
      (∀ j, j < i → ∀ lj, ls[j]? = some lj →
        (Decimal.NewFromString lj.debit).isSome = true ∧
        (Decimal.NewFromString lj.credit).isSome = true) →
      (Decimal.NewFromString line.debit = none →
        LedgerService.parseLinesFrom k ls =
          .error ⟨.InvalidArgument, s!"invalid debit amount at line {k + i}"⟩) ∧
      ((Decimal.NewFromString line.debit).isSome = true →
        Decimal.NewFromString line.credit = none →
        LedgerService.parseLinesFrom k ls =
          .error ⟨.InvalidArgument, s!"invalid credit amount at line {k + i}"⟩) := by
  induction ls with
  | nil =>
    intro k i line hget _
    exact absurd hget (by simp)
  | cons l rest ih =>
    intro k i line hget hprev
    cases i with
    | zero =>
      simp only [List.getElem?_cons_zero, Option.some.injEq] at hget
      subst hget
      constructor
      · intro hnone
        unfold LedgerService.parseLinesFrom
        rw [hnone]
        simp
      · intro hdeb hcred
        obtain ⟨d, hd⟩ := Option.isSome_iff_exists.mp hdeb
        unfold LedgerService.parseLinesFrom
        rw [hd, hcred]
        simp
    | succ i' =>
      simp only [List.getElem?_cons_succ] at hget
      have hhead := hprev 0 (Nat.zero_lt_succ i') l (by simp)
      obtain ⟨d, hd⟩ := Option.isSome_iff_exists.mp hhead.1
      obtain ⟨c, hc⟩ := Option.isSome_iff_exists.mp hhead.2
      have hprev' : ∀ j, j < i' → ∀ lj, rest[j]? = some lj →
          (Decimal.NewFromString lj.debit).isSome = true ∧
          (Decimal.NewFromString lj.credit).isSome = true := by
        intro j hj lj hgj
        exact hprev (j + 1) (by omega) lj (by simpa using hgj)
      have hrec := ih (k + 1) i' line hget hprev'
      have hidx : k + 1 + i' = k + (i' + 1) := by omega
      constructor
      · intro hnone
        unfold LedgerService.parseLinesFrom
        rw [hd, hc, hrec.1 hnone]
        rw [hidx]
      · intro hdeb hcred
        unfold LedgerService.parseLinesFrom
        rw [hd, hc, hrec.2 hdeb hcred]
        rw [hidx]

theorem toRat_foldl_add {α : Type} (f : α → Decimal) :
    ∀ (ls : List α) (acc : Decimal),
      (ls.foldl (fun s l => Decimal.add s (f l)) acc).toRat =
        acc.toRat + (ls.map (fun l => (f l).toRat)).sum := by
  intro ls
  induction ls with
  | nil => intro acc; simp
  | cons l rest ih =>
    intro acc
    simp only [List.foldl_cons, List.map_cons, List.sum_cons]
    rw [ih, Decimal.toRat_add]
    ring

/-! ## C5 — per-line amount validation (corrected) -/

/-- C5, counterexample to the claim as stated: a line whose debit is the
negative decimal "-5.00" parses successfully (shopspring's `NewFromString`
performs no sign check), and a balanced entry made of negative amounts goes
through the whole `CreateJournalEntry` pipeline successfully instead of
failing with `InvalidArgument`. -/
theorem c5_counterexample :
    Decimal.NewFromString "-5.00" = some ⟨-500, -2⟩ ∧
    (LedgerService.CreateJournalEntry twoAccountStore false
      { tenantId := 1, referenceNumber := "NEG", description := "", entryDate := 3,
        lines := [ { accountId := 1, debit := "-5.00", credit := "0", description := "" },
                   { accountId := 2, debit := "0", credit := "-5.00", description := "" } ]
      }).2.isOk = true := by
  constructor
  · decide
  · decide

/-- C5 (amended): every line's debit and credit must parse as an exact
decimal; the first malformed amount fails the call with `InvalidArgument`
naming the offending line index, with nothing persisted.  (The claim's
"non-negative" requirement is dropped: the code performs no sign check, see
`c5_counterexample`.) -/
theorem c5_malformed_amounts (st : Store) (fetchFault : Bool)
    (req : CreateJournalEntryRequest) (i : Nat) (line : PbJournalLine)
    (hlen : 2 ≤ req.lines.length)
    (hget : req.lines[i]? = some line)
    (hprev : ∀ j, j < i → ∀ lj, req.lines[j]? = some lj →
      (Decimal.NewFromString lj.debit).isSome = true ∧
      (Decimal.NewFromString lj.credit).isSome = true) :
    (Decimal.NewFromString line.debit = none →
      LedgerService.CreateJournalEntry st fetchFault req =
        (st, .error ⟨.InvalidArgument, s!"invalid debit amount at line {i}"⟩)) ∧
    ((Decimal.NewFromString line.debit).isSome = true →
      Decimal.NewFromString line.credit = none →
      LedgerService.CreateJournalEntry st fetchFault req =
        (st, .error ⟨.InvalidArgument, s!"invalid credit amount at line {i}"⟩)) := by
  have hrec := parseLinesFrom_error_at req.lines 0 i line hget hprev
  have hlen' : ¬ req.lines.length < 2 := by omega
  constructor
  · intro hnone
    unfold LedgerService.CreateJournalEntry
    rw [if_neg hlen', hrec.1 hnone]
    simp
  · intro hdeb hcred
    unfold LedgerService.CreateJournalEntry
    rw [if_neg hlen', hrec.2 hdeb hcred]
    simp

theorem c5_malformed_amounts_witness :
    LedgerService.CreateJournalEntry twoAccountStore false
      { tenantId := 1, referenceNumber := "BAD", description := "", entryDate := 3,
        lines := [ { accountId := 1, debit := "10", credit := "0", description := "" },
                   { accountId := 2, debit := "1O", credit := "10", description := "" } ] } =
      (twoAccountStore, .error ⟨.InvalidArgument, "invalid debit amount at line 1"⟩) :=
  (c5_malformed_amounts twoAccountStore false _ 1
      { accountId := 2, debit := "1O", credit := "10", description := "" }
      (by decide) (by decide)
      (by
        intro j hj lj hgj
        interval_cases j
        · simp only [List.getElem?_cons_zero, Option.some.injEq] at hgj
          subst hgj
          exact ⟨by decide, by decide⟩)).1 (by decide)

/-! ## C1 — unbalanced entries (corrected) -/

/-- C1, counterexample to the claim as stated: the debit=100.00 /
credit=99.99 scenario does fail without persisting anything, but the error
kind surfaced by the service is `Internal` (ledger.go:281 wraps every
repository error in `codes.Internal`), not `FailedPrecondition`. -/
theorem c1_counterexample :
    LedgerService.CreateJournalEntry twoAccountStore false
      { tenantId := 1, referenceNumber := "INV-1", description := "sale", entryDate := 3,
        lines := [ { accountId := 1, debit := "100.00", credit := "0", description := "" },
                   { accountId := 2, debit := "0", credit := "99.99", description := "" } ]
      } =
      (twoAccountStore,
        .error ⟨.Internal,
          "failed to create journal entry: failed to create journal entry: entry not balanced"⟩) ∧
    Code.Internal ≠ Code.FailedPrecondition := by
  constructor
  · decide
  · decide

/-- C1 (amended): a `CreateJournalEntry` call whose lines all parse but
whose exact-decimal total debits differ from total credits fails — with
error kind `Internal` (the storage layer's "entry not balanced" failure,
wrapped by the service; the claim said `FailedPrecondition`) — and persists
nothing: the returned store is exactly the input store, so no journal
entry, no line, and no balance change is visible afterwards. -/
theorem c1_unbalanced_rejected (st : Store) (fetchFault : Bool)
    (req : CreateJournalEntryRequest) (ps : List CreateJournalEntryLineParams)
    (hlen : 2 ≤ req.lines.length)
    (hparse : LedgerService.parseLinesFrom 0 req.lines = .ok ps)
    (hacct : ∀ l ∈ ps, (visibleAccounts st req.tenantId).any (fun a => a.id == l.accountID) = true)
    (hsum : (ps.map (fun l => l.debit.toRat)).sum ≠ (ps.map (fun l => l.credit.toRat)).sum) :
    LedgerService.CreateJournalEntry st fetchFault req =
      (st, .error ⟨.Internal,
        "failed to create journal entry: failed to create journal entry: entry not balanced"⟩) := by
  have hlen' : ¬ req.lines.length < 2 := by omega
  have hpslen : ¬ ps.length < 2 := by
    have := parseLinesFrom_ok_length req.lines 0 ps hparse
    omega
  have hall : ps.all (fun l => (visibleAccounts st req.tenantId).any (fun a => a.id == l.accountID)) = true :=
    List.all_eq_true.mpr hacct
  have hne : Decimal.equal
      (ps.foldl (fun s l => Decimal.add s l.debit) Decimal.zero)
      (ps.foldl (fun s l => Decimal.add s l.credit) Decimal.zero) = false := by
    rw [← Bool.not_eq_true]
    intro heq
    have := (Decimal.equal_iff_toRat _ _).mp heq
    rw [toRat_foldl_add (fun l => l.debit) ps Decimal.zero,
      toRat_foldl_add (fun l => l.credit) ps Decimal.zero, Decimal.toRat_zero] at this
    simp only [zero_add] at this
    exact hsum this
  unfold LedgerService.CreateJournalEntry
  rw [if_neg hlen', hparse]
  unfold JournalRepository.Create create_journal_entry
  simp only [hpslen, if_false, hall, Bool.not_true, hne]
  rfl

theorem c1_unbalanced_rejected_witness :
    LedgerService.CreateJournalEntry twoAccountStore false
      { tenantId := 1, referenceNumber := "INV-1", description := "sale", entryDate := 3,
        lines := [ { accountId := 1, debit := "100.00", credit := "0", description := "" },
                   { accountId := 2, debit := "0", credit := "99.99", description := "" } ]
      } =
      (twoAccountStore,
        .error ⟨.Internal,
          "failed to create journal entry: failed to create journal entry: entry not balanced"⟩) :=
  c1_unbalanced_rejected twoAccountStore false _
    [ { accountID := 1, debit := ⟨10000, -2⟩, credit := ⟨0, 0⟩, description := "" },
      { accountID := 2, debit := ⟨0, 0⟩, credit := ⟨9999, -2⟩, description := "" } ]
    (by decide) (by decide) (by decide)
    (by
      intro h
      simp only [List.map_cons, List.map_nil, List.sum_cons, List.sum_nil] at h
      norm_num [Decimal.toRat] at h)

/-! ## C6 — success reporting after a durable commit (corrected) -/

/-- C6, counterexample to the claim as stated: a balanced entry is durably
committed (the resulting store holds the new journal entry row), but
because the post-commit read-back (`r.GetByID` at the end of
`JournalRepository.Create`, ledger.go:602) fails — here through a
cancellation fault after commit — the operation reports an error instead of
success. -/
theorem c6_counterexample :
    ((LedgerService.CreateJournalEntry twoAccountStore true
      { tenantId := 1, referenceNumber := "OK-1", description := "", entryDate := 3,
        lines := [ { accountId := 1, debit := "100.00", credit := "0", description := "" },
                   { accountId := 2, debit := "0", credit := "100.00", description := "" } ]
      }).2.isOk = false) ∧
    ((LedgerService.CreateJournalEntry twoAccountStore true
      { tenantId := 1, referenceNumber := "OK-1", description := "", entryDate := 3,
        lines := [ { accountId := 1, debit := "100.00", credit := "0", description := "" },
                   { accountId := 2, debit := "0", credit := "100.00", description := "" } ]
      }).1.entries.length = 1) := by
  constructor
  · decide
  · decide

/-- C6 (amended): when no fault hits the post-commit read-back, a
`CreateJournalEntry` whose commit is durably recorded (the store changed)
reports success; the claim as stated fails because a fault between the
commit and the read-back (see `c6_counterexample`) yields an error even
though the entry is durably persisted. -/
theorem c6_commit_reports_success (st : Store) (req : CreateJournalEntryRequest)
    (st' : Store) (res : Except GrpcError CreateJournalEntryResponse)
    (h : LedgerService.CreateJournalEntry st false req = (st', res))
    (hch : st' ≠ st) :
    ∃ resp, res = .ok resp := by
  unfold LedgerService.CreateJournalEntry at h
  by_cases hlen : req.lines.length < 2
  · rw [if_pos hlen] at h
    injection h with h1 _
    exact absurd h1.symm hch
  · rw [if_neg hlen] at h
    cases hp : LedgerService.parseLinesFrom 0 req.lines with
    | error e =>
      rw [hp] at h
      injection h with h1 _
      exact absurd h1.symm hch
    | ok ps =>
      rw [hp] at h
      unfold JournalRepository.Create at h
      dsimp only at h
      cases hce : create_journal_entry st req.tenantId
          { referenceNumber := req.referenceNumber, description := req.description,
            entryDate := req.entryDate, lines := ps } with
      | error e =>
        rw [hce] at h
        injection h with h1 _
        exact absurd h1.symm hch
      | ok r =>
        obtain ⟨st1, eid⟩ := r
        rw [hce] at h
        dsimp only at h
        unfold create_journal_entry at hce
        split at hce
        · exact absurd hce (by simp)
        · split at hce
          · exact absurd hce (by simp)
          · dsimp only at hce
            split at hce
            · exact absurd hce (by simp)
            · simp only [Except.ok.injEq, Prod.mk.injEq] at hce
              obtain ⟨hst1, heid⟩ := hce
              have hget : JournalRepository.GetByID st1 req.tenantId eid =
                  .ok { id := eid, tenantId := req.tenantId,
                        referenceNumber := req.referenceNumber,
                        description := req.description, entryDate := req.entryDate,
                        lines := JournalRepository.getLinesByJournalEntryID st1 req.tenantId eid,
                        createdAt := st.clock, updatedAt := st.clock } := by
                subst hst1 heid
                unfold JournalRepository.GetByID visibleEntries
                simp
              rw [if_neg (by simp)] at h
              rw [hget] at h
              injection h with _ h2
              exact ⟨_, h2.symm⟩

theorem c6_commit_reports_success_witness :
    ∃ resp, (LedgerService.CreateJournalEntry twoAccountStore false
      { tenantId := 1, referenceNumber := "OK-1", description := "", entryDate := 3,
        lines := [ { accountId := 1, debit := "100.00", credit := "0", description := "" },
                   { accountId := 2, debit := "0", credit := "100.00", description := "" } ]
      }).2 = .ok resp :=
  c6_commit_reports_success twoAccountStore
    { tenantId := 1, referenceNumber := "OK-1", description := "", entryDate := 3,
      lines := [ { accountId := 1, debit := "100.00", credit := "0", description := "" },
                 { accountId := 2, debit := "0", credit := "100.00", description := "" } ] }
    _ _ rfl (by decide)

/-! ## C2 — balance invariant: helper lemmas -/

/-- Exact sum of the debit amounts of the lines against one account. -/
def sumDebitsFor (ls : List LineRow) (accountID : Nat) : ℚ :=
  ((ls.filter (fun l => l.accountId == accountID)).map (fun l => l.debit.toRat)).sum

/-- Exact sum of the credit amounts of the lines against one account. -/
def sumCreditsFor (ls : List LineRow) (accountID : Nat) : ℚ :=
  ((ls.filter (fun l => l.accountId == accountID)).map (fun l => l.credit.toRat)).sum

/-- The spec's balance invariant (§8): every stored balance equals the exact
decimal sum of the committed lines against its account. -/
def BalanceInv (st : Store) : Prop :=
  ∀ b ∈ st.balances,
    b.debitBalance.toRat = sumDebitsFor st.lines b.accountId ∧
    b.creditBalance.toRat = sumCreditsFor st.lines b.accountId

theorem sumDebitsFor_append (l1 l2 : List LineRow) (a : Nat) :
    sumDebitsFor (l1 ++ l2) a = sumDebitsFor l1 a + sumDebitsFor l2 a := by
  unfold sumDebitsFor
  simp [List.filter_append]

theorem sumCreditsFor_append (l1 l2 : List LineRow) (a : Nat) :
    sumCreditsFor (l1 ++ l2) a = sumCreditsFor l1 a + sumCreditsFor l2 a := by
  unfold sumCreditsFor
  simp [List.filter_append]

theorem applyLines_eq_map (now : Nat) (ls : List LineRow) :
    ∀ bs : List BalanceRow,
      applyLines now bs ls = bs.map (fun b => ls.foldl (fun x l => bumpBalance now l x) b) := by
  induction ls with
  | nil => intro bs; simp [applyLines]
  | cons l rest ih =>
    intro bs
    unfold applyLines at ih ⊢
    simp only [List.foldl_cons]
    rw [ih (bs.map (bumpBalance now l)), List.map_map]
    rfl

theorem foldl_bump_accountId (now : Nat) (ls : List LineRow) :
    ∀ b : BalanceRow, (ls.foldl (fun x l => bumpBalance now l x) b).accountId = b.accountId := by
  induction ls with
  | nil => intro b; rfl
  | cons l rest ih =>
    intro b
    simp only [List.foldl_cons]
    rw [ih]
    unfold bumpBalance
    split <;> rfl

theorem foldl_bump_debit (now : Nat) (ls : List LineRow) :
    ∀ b : BalanceRow,
      (ls.foldl (fun x l => bumpBalance now l x) b).debitBalance.toRat =
        b.debitBalance.toRat + sumDebitsFor ls b.accountId := by
  induction ls with
  | nil => intro b; simp [sumDebitsFor]
  | cons l rest ih =>
    intro b
    simp only [List.foldl_cons]
    rw [ih]
    unfold bumpBalance
    by_cases hacc : b.accountId = l.accountId
    · rw [if_pos hacc]
      unfold sumDebitsFor
      rw [List.filter_cons_of_pos (by simp [hacc])]
      simp only [List.map_cons, List.sum_cons]
      rw [Decimal.toRat_add]
      ring
    · rw [if_neg hacc]
      unfold sumDebitsFor
      rw [List.filter_cons_of_neg (by simp; intro hc; exact hacc hc.symm)]

theorem foldl_bump_credit (now : Nat) (ls : List LineRow) :
    ∀ b : BalanceRow,
      (ls.foldl (fun x l => bumpBalance now l x) b).creditBalance.toRat =
        b.creditBalance.toRat + sumCreditsFor ls b.accountId := by
  induction ls with
  | nil => intro b; simp [sumCreditsFor]
  | cons l rest ih =>
    intro b
    simp only [List.foldl_cons]
    rw [ih]
    unfold bumpBalance
    by_cases hacc : b.accountId = l.accountId
    · rw [if_pos hacc]
      unfold sumCreditsFor
      rw [List.filter_cons_of_pos (by simp [hacc])]
      simp only [List.map_cons, List.sum_cons]
      rw [Decimal.toRat_add]
      ring
    · rw [if_neg hacc]
      unfold sumCreditsFor
      rw [List.filter_cons_of_neg (by simp; intro hc; exact hacc hc.symm)]

/-- Dissection of a successful `create_journal_entry`: the allocated id, the
tenant-scoped account check, and the exact shape of the committed store. -/
theorem create_journal_entry_ok_shape (st : Store) (T : Nat) (p : CreateJournalEntryParams)
    (st1 : Store) (eid : Nat)
    (h : create_journal_entry st T p = .ok (st1, eid)) :
    eid = st.nextId ∧
    p.lines.all (fun l => (visibleAccounts st T).any (fun a => a.id == l.accountID)) = true ∧
    st1 = { st with
      entries := { id := st.nextId, tenantId := T, referenceNumber := p.referenceNumber,
                   description := p.description, entryDate := p.entryDate,
                   createdAt := st.clock, updatedAt := st.clock } :: st.entries,
      lines := mkLines st.nextId st.clock 0 p.lines ++ st.lines,
      balances := applyLines st.clock st.balances (mkLines st.nextId st.clock 0 p.lines),
      nextId := st.nextId + 1 + p.lines.length,
      clock := st.clock + 1 } := by
  unfold create_journal_entry at h
  split at h
  · exact absurd h (by simp)
  · rename_i hfk
    split at h
    · exact absurd h (by simp)
    · dsimp only at h
      split at h
      · exact absurd h (by simp)
      · simp only [Except.ok.injEq, Prod.mk.injEq] at h
        obtain ⟨hst1, heid⟩ := h
        refine ⟨heid.symm, ?_, hst1.symm⟩
        rename_i hfk2 _
        simp only [Bool.not_eq_true', Bool.not_eq_false] at hfk2
        exact hfk2

/-- The store component of `JournalRepository.Create` after a successful
`create_journal_entry` is the committed store, whatever happens to the
post-commit read-back. -/
theorem journalCreate_fst (st : Store) (T : Nat) (p : CreateJournalEntryParams)
    (fault : Bool) (st1 : Store) (eid : Nat)
    (hce : create_journal_entry st T p = .ok (st1, eid)) :
    (JournalRepository.Create st T p fault).1 = st1 := by
  unfold JournalRepository.Create
  rw [hce]
  dsimp only
  split
  · rfl
  · cases JournalRepository.GetByID st1 T eid <;> rfl

/-- The store returned by the `CreateJournalEntry` service call: either
untouched (any validation or storage failure rolled back), or exactly the
store committed by `create_journal_entry` — never anything in between. -/
theorem createJournalEntry_store (st : Store) (fault : Bool) (req : CreateJournalEntryRequest) :
    (LedgerService.CreateJournalEntry st fault req).1 = st ∨
    ∃ ps, LedgerService.parseLinesFrom 0 req.lines = .ok ps ∧
      create_journal_entry st req.tenantId
        { referenceNumber := req.referenceNumber, description := req.description,
          entryDate := req.entryDate, lines := ps } =
        .ok ((LedgerService.CreateJournalEntry st fault req).1, st.nextId) := by
  unfold LedgerService.CreateJournalEntry
  split
  · exact Or.inl rfl
  cases hp : LedgerService.parseLinesFrom 0 req.lines with
  | error e => exact Or.inl rfl
  | ok ps =>
    dsimp only
    cases hce : create_journal_entry st req.tenantId
        { referenceNumber := req.referenceNumber, description := req.description,
          entryDate := req.entryDate, lines := ps } with
    | error e =>
      left
      have hcr : JournalRepository.Create st req.tenantId
          { referenceNumber := req.referenceNumber, description := req.description,
            entryDate := req.entryDate, lines := ps } fault =
          (st, .error ("failed to create journal entry: " ++ e)) := by
        unfold JournalRepository.Create
        rw [hce]
      rw [hcr]
    | ok r =>
      obtain ⟨st1, eid⟩ := r
      have heid : eid = st.nextId := (create_journal_entry_ok_shape _ _ _ _ _ hce).1
      subst heid
      have hfst : (JournalRepository.Create st req.tenantId
          { referenceNumber := req.referenceNumber, description := req.description,
            entryDate := req.entryDate, lines := ps } fault).1 = st1 :=
        journalCreate_fst _ _ _ fault _ _ hce
      refine Or.inr ⟨ps, rfl, ?_⟩
      cases hrc : JournalRepository.Create st req.tenantId
          { referenceNumber := req.referenceNumber, description := req.description,
            entryDate := req.entryDate, lines := ps } fault with
      | mk s2 r2 =>
        rw [hrc] at hfst
        dsimp only at hfst
        cases r2 with
        | error e => dsimp only; rw [hfst]; exact hce
        | ok entry => dsimp only; rw [hfst]; exact hce

/-! ## C2 — balance invariant -/

/-- One service step preserves the balance invariant. -/
theorem balanceInv_step (st : Store) (fault : Bool) (req : CreateJournalEntryRequest)
    (hInv : BalanceInv st) :
    BalanceInv (LedgerService.CreateJournalEntry st fault req).1 := by
  rcases createJournalEntry_store st fault req with hsame | ⟨ps, _, hok⟩
  · rw [hsame]; exact hInv
  · obtain ⟨_, _, hshape⟩ := create_journal_entry_ok_shape _ _ _ _ _ hok
    rw [hshape]
    intro b hb
    simp only at hb
    rw [applyLines_eq_map] at hb
    obtain ⟨b0, hb0, rfl⟩ := List.mem_map.mp hb
    obtain ⟨hd0, hc0⟩ := hInv b0 hb0
    constructor
    · rw [foldl_bump_debit, foldl_bump_accountId]
      simp only
      rw [sumDebitsFor_append, hd0]
      ring
    · rw [foldl_bump_credit, foldl_bump_accountId]
      simp only
      rw [sumCreditsFor_append, hc0]
      ring

/-- Running a sequence of `CreateJournalEntry` calls. -/
def runEntries (st : Store) (reqs : List CreateJournalEntryRequest) : Store :=
  reqs.foldl (fun s r => (LedgerService.CreateJournalEntry s false r).1) st

/-- C2: after every sequence of `CreateJournalEntry` operations (failed ones
leave the store untouched), every stored debit_balance equals the exact
decimal sum of the committed debit lines against that account and every
credit_balance the sum of the committed credits; and each call applies its
line inserts and balance deltas in one atomic unit: the store is either
unchanged or exactly the fully-committed store of `create_journal_entry`. -/
theorem c2_balance_invariant (st : Store) (reqs : List CreateJournalEntryRequest)
    (hInv : BalanceInv st) :
    BalanceInv (runEntries st reqs) ∧
    ∀ (s : Store) (fault : Bool) (r : CreateJournalEntryRequest),
      (LedgerService.CreateJournalEntry s fault r).1 = s ∨
      ∃ ps, LedgerService.parseLinesFrom 0 r.lines = .ok ps ∧
        (LedgerService.CreateJournalEntry s fault r).1 =
          { s with
            entries := { id := s.nextId, tenantId := r.tenantId,
                         referenceNumber := r.referenceNumber,
                         description := r.description, entryDate := r.entryDate,
                         createdAt := s.clock, updatedAt := s.clock } :: s.entries,
            lines := mkLines s.nextId s.clock 0 ps ++ s.lines,
            balances := applyLines s.clock s.balances (mkLines s.nextId s.clock 0 ps),
            nextId := s.nextId + 1 + ps.length,
            clock := s.clock + 1 } := by
  constructor
  · induction reqs generalizing st with
    | nil => exact hInv
    | cons r rest ih =>
      unfold runEntries
      simp only [List.foldl_cons]
      exact ih _ (balanceInv_step st false r hInv)
  · intro s fault r
    rcases createJournalEntry_store s fault r with hsame | ⟨ps, hp, hok⟩
    · exact Or.inl hsame
    · obtain ⟨_, _, hshape⟩ := create_journal_entry_ok_shape _ _ _ _ _ hok
      exact Or.inr ⟨ps, hp, hshape⟩

theorem c2_balance_invariant_witness :
    BalanceInv (runEntries twoAccountStore
      [ { tenantId := 1, referenceNumber := "OK-1", description := "", entryDate := 3,
          lines := [ { accountId := 1, debit := "100.00", credit := "0", description := "" },
                     { accountId := 2, debit := "0", credit := "100.00", description := "" } ] } ]) :=
  (c2_balance_invariant twoAccountStore _
    (by
      intro b hb
      simp only [twoAccountStore, List.mem_cons, List.not_mem_nil, or_false] at hb
      rcases hb with rfl | rfl | rfl <;>
        constructor <;>
          simp [sumDebitsFor, sumCreditsFor, Decimal.toRat_zero, twoAccountStore])).1

/-! ## C9 — line ordering (corrected) -/

def tiedEntry : EntryRow :=
  { id := 10, tenantId := 1, referenceNumber := "T-1", description := "",
    entryDate := 4, createdAt := 5, updatedAt := 5 }

def tiedLineA : LineRow :=
  { id := 21, journalEntryId := 10, accountId := 1, debit := ⟨100, 0⟩,
    credit := ⟨0, 0⟩, description := "a", createdAt := 5 }

def tiedLineB : LineRow :=
  { id := 22, journalEntryId := 10, accountId := 2, debit := ⟨0, 0⟩,
    credit := ⟨100, 0⟩, description := "b", createdAt := 5 }

/-- A store whose journal entry 10 has two lines sharing `created_at` — the
normal situation, since all lines of one entry are written in one
transaction and share its timestamp. -/
def tiedLinesStore : Store :=
  { accounts := [], entries := [tiedEntry], lines := [tiedLineA, tiedLineB],
    balances := [], nextId := 30, clock := 20 }

/-- The same store with strictly increasing line timestamps. -/
def strictLinesStore : Store :=
  { tiedLinesStore with
    lines := [tiedLineA, { tiedLineB with createdAt := 6 }] }

/-- C9, counterexample to the claim as stated: with two lines sharing a
creation timestamp, the lines query (`ORDER BY created_at` with no further
key) is free to return the lines in reversed order — a result the query
text permits that is not the original insertion order. -/
theorem c9_counterexample :
    JournalRepository.LinesQueryResult tiedLinesStore 1 10 [tiedLineB, tiedLineA] ∧
    [tiedLineB, tiedLineA] ≠
      (visibleLines tiedLinesStore 1).filter (fun l => l.journalEntryId == 10) := by
  constructor
  · constructor
    · have hf : (visibleLines tiedLinesStore 1).filter (fun l => l.journalEntryId == 10) =
          [tiedLineA, tiedLineB] := by decide
      rw [hf]
      exact List.Perm.swap _ _ _
    · decide
  · decide

/-- Uniqueness of a sorted permutation of a strictly sorted list. -/
theorem perm_sorted_strict_unique :
    ∀ (l2 l1 : List LineRow), l1.Perm l2 →
      l2.Pairwise (fun a b => a.createdAt < b.createdAt) →
      l1.Pairwise lineLe → l1 = l2 := by
  intro l2
  induction l2 with
  | nil =>
    intro l1 hp _ _
    exact hp.eq_nil
  | cons b t ih =>
    intro l1 hp h2 h1
    cases l1 with
    | nil => exact absurd hp.symm.eq_nil (by simp)
    | cons a s =>
      have hab : a = b := by
        by_contra hne
        have ha : a ∈ b :: t := hp.mem_iff.mp (List.mem_cons_self a s)
        have hat : a ∈ t := by
          rcases List.mem_cons.mp ha with h | h
          · exact absurd h hne
          · exact h
        have hblt : b.createdAt < a.createdAt := (List.pairwise_cons.mp h2).1 a hat
        have hb : b ∈ a :: s := hp.symm.mem_iff.mp (List.mem_cons_self b t)
        have hbs : b ∈ s := by
          rcases List.mem_cons.mp hb with h | h
          · exact absurd h.symm hne
          · exact h
        have hale : lineLe a b := (List.pairwise_cons.mp h1).1 b hbs
        unfold lineLe at hale
        omega
      subst hab
      have hst : s.Perm t := hp.cons_inv
      have := ih s hst (List.pairwise_cons.mp h2).2 (List.pairwise_cons.mp h1).2
      rw [this]

/-- C9 (amended): `GetJournalEntry` fails `NotFound` when no entry with the
given id exists in the tenant's scope, and the lines query returns the
lines sorted by `created_at`; this equals the original insertion order
whenever the stored timestamps are strictly increasing in insertion order,
but the relative order of lines sharing a timestamp is not guaranteed (see
`c9_counterexample`) — in particular all lines of one entry share the
transaction timestamp. -/
theorem c9_lines_order :
    (∀ (st : Store) (tenantId journalEntryId : Nat),
      (¬ ∃ e ∈ st.entries, e.id = journalEntryId ∧ e.tenantId = tenantId) →
      ∃ msg, LedgerService.GetJournalEntry st tenantId journalEntryId =
        .error ⟨.NotFound, msg⟩) ∧
    (∀ (st : Store) (tenantId journalEntryId : Nat) (res : List LineRow),
      JournalRepository.LinesQueryResult st tenantId journalEntryId res →
      ((visibleLines st tenantId).filter
        (fun l => l.journalEntryId == journalEntryId)).Pairwise
          (fun a b => a.createdAt < b.createdAt) →
      res = (visibleLines st tenantId).filter
        (fun l => l.journalEntryId == journalEntryId)) := by
  constructor
  · intro st tenantId journalEntryId hno
    have hfind : (visibleEntries st tenantId).find? (fun e => e.id == journalEntryId) = none := by
      rw [List.find?_eq_none]
      intro e he
      have hmem := List.mem_filter.mp he
      intro hid
      exact hno ⟨e, hmem.1, by simpa using hid, by simpa using hmem.2⟩
    refine ⟨"journal entry not found: journal entry not found", ?_⟩
    unfold LedgerService.GetJournalEntry JournalRepository.GetByID
    rw [hfind]
    rfl
  · intro st tenantId journalEntryId res hres hstrict
    exact perm_sorted_strict_unique _ res hres.1 hstrict hres.2

theorem c9_lines_order_witness :
    (∃ msg, LedgerService.GetJournalEntry twoAccountStore 1 99 =
      .error ⟨.NotFound, msg⟩) ∧
    [tiedLineA, { tiedLineB with createdAt := 6 }] =
      (visibleLines strictLinesStore 1).filter (fun l => l.journalEntryId == 10) :=
  ⟨c9_lines_order.1 twoAccountStore 1 99 (by decide),
   c9_lines_order.2 strictLinesStore 1 10 _
     (by
       constructor
       · have hf : (visibleLines strictLinesStore 1).filter
             (fun l => l.journalEntryId == 10) =
             [tiedLineA, { tiedLineB with createdAt := 6 }] := by decide
         rw [hf]
       · decide)
     (by decide)⟩

/-! ## C8 — ListJournalEntries with an account filter: helper lemmas -/

theorem mem_entriesJoined (st : Store) (tenantId accountId : Nat) (e : EntryRow) :
    e ∈ JournalRepository.entriesJoinedByAccount st tenantId (some accountId) ↔
      (e ∈ st.entries ∧ e.tenantId = tenantId ∧
        ∃ l ∈ st.lines, l.journalEntryId = e.id ∧ l.accountId = accountId) := by
  unfold JournalRepository.entriesJoinedByAccount
  constructor
  · intro h
    obtain ⟨je, hje, hmem⟩ := List.mem_flatMap.mp h
    obtain ⟨l, hl, heq⟩ := List.mem_map.mp hmem
    subst heq
    obtain ⟨hlv, hpred⟩ := List.mem_filter.mp hl
    obtain ⟨hlmem, _⟩ := List.mem_filter.mp hlv
    simp only [Bool.and_eq_true] at hpred
    obtain ⟨hjid, hacc⟩ := hpred
    obtain ⟨hemem, htid⟩ := List.mem_filter.mp hje
    exact ⟨hemem, by simpa using htid, l, hlmem,
      by simpa using hjid, by simpa using hacc⟩
  · rintro ⟨hmem, htid, l, hlmem, hljid, hlacc⟩
    refine List.mem_flatMap.mpr ⟨e, List.mem_filter.mpr ⟨hmem, by simpa using htid⟩, ?_⟩
    refine List.mem_map.mpr ⟨l, List.mem_filter.mpr ⟨?_, ?_⟩, rfl⟩
    · refine List.mem_filter.mpr ⟨hlmem, ?_⟩
      simp only [List.any_eq_true, Bool.and_eq_true, beq_iff_eq]
      exact ⟨e, hmem, hljid.symm, htid⟩
    · simp [hljid, hlacc]

theorem entryDateOk_iff (fromDate toDate : Option Nat) (e : EntryRow) :
    JournalRepository.entryDateOk fromDate toDate e = true ↔
      ((∀ f, fromDate = some f → f ≤ e.entryDate) ∧
       (∀ t, toDate = some t → e.entryDate ≤ t)) := by
  unfold JournalRepository.entryDateOk
  cases fromDate <;> cases toDate <;> simp

theorem dedup_map_id_length (l : List EntryRow)
    (hinj : ∀ x ∈ l, ∀ y ∈ l, x.id = y.id → x = y) :
    ((l.map (fun e => e.id)).dedup).length = l.dedup.length := by
  induction l with
  | nil => simp
  | cons e t ih =>
    have hinj' : ∀ x ∈ t, ∀ y ∈ t, x.id = y.id → x = y := fun x hx y hy =>
      hinj x (List.mem_cons_of_mem e hx) y (List.mem_cons_of_mem e hy)
    by_cases he : e ∈ t
    · rw [List.map_cons, List.dedup_cons_of_mem he,
        List.dedup_cons_of_mem (List.mem_map_of_mem _ he)]
      exact ih hinj'
    · have hid : e.id ∉ t.map (fun x => x.id) := by
        intro hmem
        obtain ⟨y, hy, hyid⟩ := List.mem_map.mp hmem
        have : y = e := hinj' y hy y hy rfl ▸
          hinj y (List.mem_cons_of_mem e hy) e (List.mem_cons_self e t) hyid
        exact he (this ▸ hy)
      rw [List.map_cons, List.dedup_cons_of_not_mem he, List.dedup_cons_of_not_mem hid]
      simp [ih hinj']

/-- C8: for `ListJournalEntries` with an account filter (page covering the
whole result and unique entry ids), the returned page contains exactly the
tenant's entries having at least one line against that account — each entry
once, however many of its lines hit the account — with `from_date` and
`to_date` as inclusive bounds on `entry_date`; `total_count` counts the
distinct qualifying entries; and the result is ordered by `entry_date`
descending with `created_at` descending as tie-break. -/
theorem c8_list_entries_account_filter (st : Store) (tenantId accountId : Nat)
    (fromDate toDate : Option Nat) (limit : Int)
    (hNodup : (st.entries.map (fun e => e.id)).Nodup)
    (hlim : (JournalRepository.List st tenantId (some accountId) fromDate toDate limit 0).2 ≤
      limit.toNat) :
    (∀ e, e ∈ (JournalRepository.List st tenantId (some accountId) fromDate toDate limit 0).1 ↔
      (e ∈ st.entries ∧ e.tenantId = tenantId ∧
       (∃ l ∈ st.lines, l.journalEntryId = e.id ∧ l.accountId = accountId) ∧
       (∀ f, fromDate = some f → f ≤ e.entryDate) ∧
       (∀ t, toDate = some t → e.entryDate ≤ t))) ∧
    (JournalRepository.List st tenantId (some accountId) fromDate toDate limit 0).1.Nodup ∧
    (JournalRepository.List st tenantId (some accountId) fromDate toDate limit 0).2 =
      (st.entries.filter (fun e => e.tenantId == tenantId &&
        st.lines.any (fun l => l.journalEntryId == e.id && l.accountId == accountId) &&
        JournalRepository.entryDateOk fromDate toDate e)).length ∧
    (JournalRepository.List st tenantId (some accountId) fromDate toDate limit 0).1.Pairwise
      entryLe := by
  have hdated : (JournalRepository.List st tenantId (some accountId) fromDate toDate limit 0).1 =
      ((List.insertionSort entryLe
        ((JournalRepository.entriesJoinedByAccount st tenantId (some accountId)).filter
          (JournalRepository.entryDateOk fromDate toDate)).dedup).drop (0 : Int).toNat).take
        limit.toNat := rfl
  have hdated2 : (JournalRepository.List st tenantId (some accountId) fromDate toDate limit 0).2 =
      ((((JournalRepository.entriesJoinedByAccount st tenantId (some accountId)).filter
          (JournalRepository.entryDateOk fromDate toDate)).map (fun e => e.id)).dedup).length :=
    rfl
  generalize hD : (JournalRepository.entriesJoinedByAccount st tenantId (some accountId)).filter
      (JournalRepository.entryDateOk fromDate toDate) = dated at hdated hdated2
  have hmemdated : ∀ e, e ∈ dated ↔ (e ∈ st.entries ∧ e.tenantId = tenantId ∧
      (∃ l ∈ st.lines, l.journalEntryId = e.id ∧ l.accountId = accountId) ∧
      (∀ f, fromDate = some f → f ≤ e.entryDate) ∧
      (∀ t, toDate = some t → e.entryDate ≤ t)) := by
    intro e
    rw [← hD, List.mem_filter, mem_entriesJoined, entryDateOk_iff]
    tauto
  have hdatedsub : ∀ e ∈ dated, e ∈ st.entries := fun e he => ((hmemdated e).mp he).1
  have hinj : ∀ x ∈ dated, ∀ y ∈ dated, x.id = y.id → x = y := fun x hx y hy h =>
    List.inj_on_of_nodup_map hNodup (hdatedsub x hx) (hdatedsub y hy) h
  have htot : ((dated.map (fun e => e.id)).dedup).length = dated.dedup.length :=
    dedup_map_id_length dated hinj
  have hlen : (List.insertionSort entryLe dated.dedup).length = dated.dedup.length :=
    (List.perm_insertionSort entryLe dated.dedup).length_eq
  have hfull : ((List.insertionSort entryLe dated.dedup).drop (0 : Int).toNat).take limit.toNat =
      List.insertionSort entryLe dated.dedup := by
    rw [show ((0 : Int).toNat) = 0 from rfl, List.drop_zero]
    apply List.take_of_length_le
    rw [hlen, ← htot, ← hdated2]
    exact hlim
  rw [hdated, hdated2, hfull]
  refine ⟨?_, ?_, ?_, ?_⟩
  · intro e
    rw [List.Perm.mem_iff (List.perm_insertionSort entryLe dated.dedup), List.mem_dedup]
    exact hmemdated e
  · exact ((List.perm_insertionSort entryLe dated.dedup).nodup_iff).mpr (List.nodup_dedup dated)
  · have hfiltnodup : (st.entries.filter (fun e => e.tenantId == tenantId &&
        st.lines.any (fun l => l.journalEntryId == e.id && l.accountId == accountId) &&
        JournalRepository.entryDateOk fromDate toDate e)).Nodup :=
      (List.Nodup.of_map _ hNodup).filter _
    have hperm : dated.dedup.Perm (st.entries.filter (fun e => e.tenantId == tenantId &&
        st.lines.any (fun l => l.journalEntryId == e.id && l.accountId == accountId) &&
        JournalRepository.entryDateOk fromDate toDate e)) := by
      rw [List.perm_ext_iff_of_nodup (List.nodup_dedup dated) hfiltnodup]
      intro x
      rw [List.mem_dedup, hmemdated x, List.mem_filter]
      simp only [Bool.and_eq_true, beq_iff_eq, List.any_eq_true, entryDateOk_iff]
      tauto
    rw [htot, hperm.length_eq]
  · exact List.sorted_insertionSort entryLe dated.dedup

/-- A store with three committed journal entries: entries 10 and 11 of
tenant 1 (entry 10 hitting account 1 twice), entry 12 of tenant 2. -/
def listStore : Store :=
  { accounts := [],
    entries :=
      [ { id := 10, tenantId := 1, referenceNumber := "A", description := "",
          entryDate := 4, createdAt := 5, updatedAt := 5 },
        { id := 11, tenantId := 1, referenceNumber := "B", description := "",
          entryDate := 6, createdAt := 7, updatedAt := 7 },
        { id := 12, tenantId := 2, referenceNumber := "C", description := "",
          entryDate := 6, createdAt := 8, updatedAt := 8 } ],
    lines :=
      [ { id := 21, journalEntryId := 10, accountId := 1, debit := ⟨50, 0⟩,
          credit := ⟨0, 0⟩, description := "", createdAt := 5 },
        { id := 22, journalEntryId := 10, accountId := 1, debit := ⟨50, 0⟩,
          credit := ⟨0, 0⟩, description := "", createdAt := 5 },
        { id := 23, journalEntryId := 11, accountId := 1, debit := ⟨10, 0⟩,
          credit := ⟨0, 0⟩, description := "", createdAt := 7 },
        { id := 24, journalEntryId := 12, accountId := 1, debit := ⟨10, 0⟩,
          credit := ⟨0, 0⟩, description := "", createdAt := 8 } ],
    balances := [], nextId := 30, clock := 20 }

theorem c8_list_entries_account_filter_witness :
    (JournalRepository.List listStore 1 (some 1) none none 50 0).1.Nodup ∧
    (JournalRepository.List listStore 1 (some 1) none none 50 0).2 =
      (listStore.entries.filter (fun e => e.tenantId == 1 &&
        listStore.lines.any (fun l => l.journalEntryId == e.id && l.accountId == 1) &&
        JournalRepository.entryDateOk none none e)).length :=
  ⟨(c8_list_entries_account_filter listStore 1 1 none none 50 (by decide) (by decide)).2.1,
   (c8_list_entries_account_filter listStore 1 1 none none 50 (by decide) (by decide)).2.2.1⟩

/-! ## C3 — tenant isolation: helper lemmas -/

/-- The view another tenant's scoped session has of the store is unchanged:
no row it can see was added, removed, or modified. -/
def otherTenantsUnchanged (st st' : Store) (tenantId : Nat) : Prop :=
  ∀ otherTenant, otherTenant ≠ tenantId →
    visibleAccounts st' otherTenant = visibleAccounts st otherTenant ∧
    visibleEntries st' otherTenant = visibleEntries st otherTenant ∧
    visibleLines st' otherTenant = visibleLines st otherTenant ∧
    visibleBalances st' otherTenant = visibleBalances st otherTenant

theorem foldl_bump_eq_self (now : Nat) (ls : List LineRow) (b : BalanceRow)
    (h : ∀ l ∈ ls, l.accountId ≠ b.accountId) :
    ls.foldl (fun x l => bumpBalance now l x) b = b := by
  induction ls with
  | nil => rfl
  | cons l rest ih =>
    simp only [List.foldl_cons]
    have hbl : bumpBalance now l b = b := by
      unfold bumpBalance
      rw [if_neg (fun he => h l (List.mem_cons_self l rest) he.symm)]
    rw [hbl]
    exact ih (fun x hx => h x (List.mem_cons_of_mem l hx))

theorem mkLines_mem (eid clock : Nat) (ps : List CreateJournalEntryLineParams) :
    ∀ (k : Nat) (l : LineRow), l ∈ mkLines eid clock k ps →
      l.journalEntryId = eid ∧ l.createdAt = clock ∧ ∃ p ∈ ps, l.accountId = p.accountID := by
  induction ps with
  | nil =>
    intro k l h
    exact absurd h (by simp [mkLines])
  | cons p rest ih =>
    intro k l h
    unfold mkLines at h
    rcases List.mem_cons.mp h with rfl | h
    · exact ⟨rfl, rfl, p, List.mem_cons_self p rest, rfl⟩
    · obtain ⟨h1, h2, q, hq, h3⟩ := ih (k + 1) l h
      exact ⟨h1, h2, q, List.mem_cons_of_mem p hq, h3⟩

theorem filter_map_fix (p : BalanceRow → Bool) (f : BalanceRow → BalanceRow)
    (l : List BalanceRow)
    (hpres : ∀ b ∈ l, p (f b) = p b)
    (hfix : ∀ b ∈ l, p b = true → f b = b) :
    (l.map f).filter p = l.filter p := by
  induction l with
  | nil => rfl
  | cons b t ih =>
    have hpres' : ∀ x ∈ t, p (f x) = p x := fun x hx => hpres x (List.mem_cons_of_mem b hx)
    have hfix' : ∀ x ∈ t, p x = true → f x = x := fun x hx => hfix x (List.mem_cons_of_mem b hx)
    simp only [List.map_cons]
    by_cases hb : p b = true
    · rw [List.filter_cons_of_pos (by rw [hpres b (List.mem_cons_self b t)]; exact hb),
        List.filter_cons_of_pos hb, hfix b (List.mem_cons_self b t) hb, ih hpres' hfix']
    · rw [List.filter_cons_of_neg (by rw [hpres b (List.mem_cons_self b t)]; exact hb),
        List.filter_cons_of_neg hb, ih hpres' hfix']

/-- Adding an entry of another tenant to the table does not change which
lines a tenant's session can see. -/
theorem any_cons_entry_tenant_false (es : List EntryRow) (entry : EntryRow) (otherTenant : Nat)
    (hT : (entry.tenantId == otherTenant) = false) (l : LineRow) :
    ((entry :: es).any (fun e => e.id == l.journalEntryId && e.tenantId == otherTenant)) =
    (es.any (fun e => e.id == l.journalEntryId && e.tenantId == otherTenant)) := by
  simp [List.any_cons, hT]

/-- Adding an account of another tenant to the table does not change which
balances a tenant's session can see. -/
theorem any_cons_account_tenant_false (accts : List AccountRow) (acct : AccountRow)
    (otherTenant : Nat) (hT : (acct.tenantId == otherTenant) = false) (b : BalanceRow) :
    ((acct :: accts).any (fun a => a.id == b.accountId && a.tenantId == otherTenant)) =
    (accts.any (fun a => a.id == b.accountId && a.tenantId == otherTenant)) := by
  simp [List.any_cons, hT]

/-- The components of the store committed by `create_journal_entry`,
exposed through an abstract entry row. -/
theorem create_journal_entry_ok_parts (st : Store) (tenantId : Nat)
    (p : CreateJournalEntryParams) (st1 : Store) (eid : Nat)
    (h : create_journal_entry st tenantId p = .ok (st1, eid)) :
    ∃ entry : EntryRow, entry.tenantId = tenantId ∧ entry.id = st.nextId ∧
      st1.accounts = st.accounts ∧
      st1.entries = entry :: st.entries ∧
      st1.lines = mkLines st.nextId st.clock 0 p.lines ++ st.lines ∧
      st1.balances = applyLines st.clock st.balances (mkLines st.nextId st.clock 0 p.lines) ∧
      p.lines.all (fun l => (visibleAccounts st tenantId).any (fun a => a.id == l.accountID)) =
        true := by
  obtain ⟨_, hfk, hshape⟩ := create_journal_entry_ok_shape _ _ _ _ _ h
  subst hshape
  exact ⟨_, rfl, rfl, rfl, rfl, rfl, rfl, hfk⟩

/-- A committed `create_journal_entry` for tenant T leaves every other
tenant's view of the store unchanged. -/
theorem cje_ok_other_tenants (st : Store) (tenantId : Nat) (p : CreateJournalEntryParams)
    (st1 : Store) (eid : Nat) (hWF : StoreWF st)
    (hok : create_journal_entry st tenantId p = .ok (st1, eid)) :
    otherTenantsUnchanged st st1 tenantId := by
  obtain ⟨hAccB, hEntB, hLinB, hAccN, hEntN, hBalN, hBalAcc, hAccBal⟩ := hWF
  obtain ⟨entry, hT, hid, hacc, hent, hlin, hbal, hfk⟩ :=
    create_journal_entry_ok_parts _ _ _ _ _ hok
  intro otherTenant hne
  have hTne : (entry.tenantId == otherTenant) = false := by
    rw [hT]
    exact beq_eq_false_iff_ne.mpr (fun h => hne h.symm)
  have hnil : (mkLines st.nextId st.clock 0 p.lines).filter
      (fun l => st.entries.any
        (fun e => e.id == l.journalEntryId && e.tenantId == otherTenant)) = [] := by
    rw [List.filter_eq_nil_iff]
    intro l hl
    simp only [List.any_eq_true, Bool.and_eq_true, beq_iff_eq, not_exists]
    rintro e ⟨he, heid, _⟩
    have hjid : l.journalEntryId = st.nextId := (mkLines_mem _ _ _ _ l hl).1
    have := hEntB e he
    omega
  refine ⟨?_, ?_, ?_, ?_⟩
  · unfold visibleAccounts
    rw [hacc]
  · unfold visibleEntries
    rw [hent, List.filter_cons_of_neg (by simp [hTne])]
  · unfold visibleLines
    rw [hent, hlin,
      List.filter_congr (fun l _ =>
        any_cons_entry_tenant_false st.entries entry otherTenant hTne l),
      List.filter_append, hnil, List.nil_append]
  · unfold visibleBalances
    rw [hacc, hbal, applyLines_eq_map]
    apply filter_map_fix
    · intro b _
      simp only [foldl_bump_accountId]
    · intro b _ hb
      apply foldl_bump_eq_self
      intro l hl hacc2
      simp only [List.any_eq_true, Bool.and_eq_true, beq_iff_eq] at hb
      obtain ⟨aOther, haOtherMem, haOtherId, haOtherT⟩ := hb
      obtain ⟨_, _, q, hq, hlacc⟩ := mkLines_mem _ _ _ _ l hl
      have hfk2 := List.all_eq_true.mp hfk q hq
      simp only [List.any_eq_true, Bool.and_eq_true, beq_iff_eq] at hfk2
      obtain ⟨aT, haTmem, haTid⟩ := hfk2
      have haTfil := List.mem_filter.mp haTmem
      have haTten : aT.tenantId = tenantId := by simpa using haTfil.2
      have hids : aT.id = aOther.id := by
        rw [haTid, ← hlacc, hacc2, haOtherId]
      have haEq : aT = aOther := List.inj_on_of_nodup_map hAccN haTfil.1 haOtherMem hids
      rw [haEq] at haTten
      rw [haTten] at haOtherT
      exact hne haOtherT.symm

/-- The components of the store committed by `create_account`, exposed
through abstract account and balance rows. -/
theorem create_account_ok_parts (st : Store) (tenantId : Nat) (p : CreateAccountParams)
    (st1 : Store) (accountId : Nat)
    (h : create_account st tenantId p = .ok (st1, accountId)) :
    ∃ (acct : AccountRow) (bal : BalanceRow),
      acct.tenantId = tenantId ∧ acct.id = st.nextId ∧ bal.accountId = st.nextId ∧
      st1.accounts = acct :: st.accounts ∧
      st1.balances = bal :: st.balances ∧
      st1.entries = st.entries ∧
      st1.lines = st.lines := by
  unfold create_account at h
  split at h
  · exact absurd h (by simp)
  · simp only [Except.ok.injEq, Prod.mk.injEq] at h
    obtain ⟨hst1, _⟩ := h
    subst hst1
    exact ⟨_, _, rfl, rfl, rfl, rfl, rfl, rfl, rfl⟩

/-- A committed `create_account` for tenant T leaves every other tenant's
view of the store unchanged. -/
theorem ca_ok_other_tenants (st : Store) (tenantId : Nat) (p : CreateAccountParams)
    (st1 : Store) (accountId : Nat) (hWF : StoreWF st)
    (hok : create_account st tenantId p = .ok (st1, accountId)) :
    otherTenantsUnchanged st st1 tenantId := by
  obtain ⟨hAccB, hEntB, hLinB, hAccN, hEntN, hBalN, hBalAcc, hAccBal⟩ := hWF
  obtain ⟨acct, bal, hT, hid, hbid, haccs, hbals, hents, hlins⟩ :=
    create_account_ok_parts _ _ _ _ _ hok
  intro otherTenant hne
  have hTne : (acct.tenantId == otherTenant) = false := by
    rw [hT]
    exact beq_eq_false_iff_ne.mpr (fun h => hne h.symm)
  refine ⟨?_, ?_, ?_, ?_⟩
  · unfold visibleAccounts
    rw [haccs, List.filter_cons_of_neg (by simp [hTne])]
  · unfold visibleEntries
    rw [hents]
  · unfold visibleLines
    rw [hents, hlins]
  · unfold visibleBalances
    rw [haccs, hbals,
      List.filter_cons_of_neg ?_,
      List.filter_congr (fun b _ =>
        any_cons_account_tenant_false st.accounts acct otherTenant hTne b)]
    rw [any_cons_account_tenant_false st.accounts acct otherTenant hTne]
    simp only [List.any_eq_true, Bool.and_eq_true, beq_iff_eq, not_exists]
    rintro a ⟨ha, haid, _⟩
    have := hAccB a ha
    rw [hbid] at haid
    omega

/-- The store component of `AccountRepository.Create` after a successful
`create_account`. -/
theorem accountCreate_fst (st : Store) (tenantId : Nat) (p : CreateAccountParams)
    (st1 : Store) (accountId : Nat)
    (hce : create_account st tenantId p = .ok (st1, accountId)) :
    (AccountRepository.Create st tenantId p).1 = st1 := by
  unfold AccountRepository.Create
  rw [hce]
  dsimp only
  cases AccountRepository.GetByID st1 tenantId accountId <;> rfl

/-- The store returned by the `CreateAccount` service call: either untouched
or exactly the store committed by `create_account`. -/
theorem createAccount_store (st : Store) (req : CreateAccountRequest) :
    (LedgerService.CreateAccount st req).1 = st ∨
    ∃ accountId, create_account st req.tenantId
      { accountNumber := req.accountNumber, name := req.name,
        description := if req.description = "" then none else some req.description,
        accountTypeId := req.accountTypeId, currencyCode := req.currencyCode,
        parentAccountID := req.parentAccountId } =
      .ok ((LedgerService.CreateAccount st req).1, accountId) := by
  unfold LedgerService.CreateAccount
  split
  · exact Or.inl rfl
  split
  · exact Or.inl rfl
  dsimp only
  cases hce : create_account st req.tenantId
      { accountNumber := req.accountNumber, name := req.name,
        description := if req.description = "" then none else some req.description,
        accountTypeId := req.accountTypeId, currencyCode := req.currencyCode,
        parentAccountID := req.parentAccountId } with
  | error e =>
    left
    have hcr : AccountRepository.Create st req.tenantId
        { accountNumber := req.accountNumber, name := req.name,
          description := if req.description = "" then none else some req.description,
          accountTypeId := req.accountTypeId, currencyCode := req.currencyCode,
          parentAccountID := req.parentAccountId } =
        (st, .error ("failed to create account: " ++ e)) := by
      unfold AccountRepository.Create
      rw [hce]
    rw [hcr]
  | ok r =>
    obtain ⟨st1, accountId⟩ := r
    have hfst : (AccountRepository.Create st req.tenantId
        { accountNumber := req.accountNumber, name := req.name,
          description := if req.description = "" then none else some req.description,
          accountTypeId := req.accountTypeId, currencyCode := req.currencyCode,
          parentAccountID := req.parentAccountId }).1 = st1 :=
      accountCreate_fst _ _ _ _ _ hce
    refine Or.inr ⟨accountId, ?_⟩
    cases hrc : AccountRepository.Create st req.tenantId
        { accountNumber := req.accountNumber, name := req.name,
          description := if req.description = "" then none else some req.description,
          accountTypeId := req.accountTypeId, currencyCode := req.currencyCode,
          parentAccountID := req.parentAccountId } with
    | mk s2 r2 =>
      rw [hrc] at hfst
      dsimp only at hfst
      cases r2 with
      | error e =>
        dsimp only
        rw [hfst]
      | ok a =>
        dsimp only
        rw [hfst]

/-- Every entry produced by the `FROM`/`JOIN` clause of
`JournalRepository.List` belongs to the session's tenant. -/
theorem entriesJoined_tenant (st : Store) (tenantId : Nat) (accountID : Option Nat) :
    ∀ e ∈ JournalRepository.entriesJoinedByAccount st tenantId accountID,
      e.tenantId = tenantId := by
  intro e he
  cases accountID with
  | none =>
    unfold JournalRepository.entriesJoinedByAccount at he
    have := List.mem_filter.mp he
    simpa using this.2
  | some a => exact ((mem_entriesJoined st tenantId a e).mp he).2.1

/-- C3: under a session scoped to one tenant, every read operation
(`GetAccount`, `ListAccounts`, `GetAccountBalance`, `GetJournalEntry`,
`ListJournalEntries`) returns only rows belonging to that tenant — even
when the caller supplies another tenant's exact row id — and every write
operation (`CreateAccount`, `CreateJournalEntry`) leaves every other
tenant's view of the store (accounts, entries, lines, balances) unchanged. -/
theorem c3_tenant_isolation (st : Store) (tenantId : Nat) (hWF : StoreWF st) :
    (∀ accountId a, LedgerService.GetAccount st tenantId accountId = .ok a →
      a.tenantId = tenantId) ∧
    (∀ req : ListAccountsRequest, req.tenantId = tenantId →
      ∀ a ∈ (LedgerService.ListAccounts st req).1, a.tenantId = tenantId) ∧
    (∀ accountId resp, LedgerService.GetAccountBalance st tenantId accountId = .ok resp →
      ∃ acct ∈ st.accounts, acct.id = resp.accountId ∧ acct.tenantId = tenantId) ∧
    (∀ journalEntryId ent,
      LedgerService.GetJournalEntry st tenantId journalEntryId = .ok ent →
      ent.tenantId = tenantId ∧
      ∀ l ∈ ent.lines, ∃ er ∈ st.entries,
        er.id = l.journalEntryId ∧ er.tenantId = tenantId) ∧
    (∀ req : ListJournalEntriesRequest, req.tenantId = tenantId →
      ∀ e ∈ (LedgerService.ListJournalEntries st req).1, e.tenantId = tenantId) ∧
    (∀ req : CreateAccountRequest, req.tenantId = tenantId →
      otherTenantsUnchanged st (LedgerService.CreateAccount st req).1 tenantId) ∧
    (∀ (req : CreateJournalEntryRequest) (fault : Bool), req.tenantId = tenantId →
      otherTenantsUnchanged st (LedgerService.CreateJournalEntry st fault req).1 tenantId) := by
  refine ⟨?_, ?_, ?_, ?_, ?_, ?_, ?_⟩
  · -- GetAccount
    intro accountId a h
    unfold LedgerService.GetAccount at h
    cases hg : AccountRepository.GetByID st tenantId accountId with
    | error e => rw [hg] at h; exact absurd h (by simp)
    | ok a2 =>
      rw [hg] at h
      simp only [Except.ok.injEq] at h
      subst h
      unfold AccountRepository.GetByID at hg
      cases hf : (visibleAccounts st tenantId).find? (fun x => x.id == accountId) with
      | none => rw [hf] at hg; exact absurd hg (by simp)
      | some a3 =>
        rw [hf] at hg
        simp only [Except.ok.injEq] at hg
        subst hg
        have hmem := List.mem_filter.mp (List.mem_of_find?_eq_some hf)
        simpa using hmem.2
  · -- ListAccounts
    intro req hreq a ha
    unfold LedgerService.ListAccounts at ha
    dsimp only at ha
    unfold AccountRepository.List at ha
    dsimp only at ha
    have h1 := List.mem_of_mem_drop (List.mem_of_mem_take ha)
    have h2 := (List.mem_insertionSort accountLe).mp h1
    have h3 := List.mem_filter.mp h2
    have h4 := List.mem_filter.mp h3.1
    rw [← hreq]
    simpa using h4.2
  · -- GetAccountBalance
    intro accountId resp h
    unfold LedgerService.GetAccountBalance at h
    cases hg : AccountRepository.GetBalance st tenantId accountId with
    | error e => rw [hg] at h; exact absurd h (by simp)
    | ok b =>
      rw [hg] at h
      simp only [Except.ok.injEq] at h
      subst h
      unfold AccountRepository.GetBalance at hg
      cases hf : (visibleBalances st tenantId).find? (fun x => x.accountId == accountId) with
      | none => rw [hf] at hg; exact absurd hg (by simp)
      | some b2 =>
        rw [hf] at hg
        simp only [Except.ok.injEq] at hg
        subst hg
        have hmem := List.mem_filter.mp (List.mem_of_find?_eq_some hf)
        have hany := hmem.2
        simp only [List.any_eq_true, Bool.and_eq_true, beq_iff_eq] at hany
        obtain ⟨acct, hacctMem, hacctId, hacctT⟩ := hany
        exact ⟨acct, hacctMem, hacctId, hacctT⟩
  · -- GetJournalEntry
    intro journalEntryId ent h
    unfold LedgerService.GetJournalEntry at h
    cases hg : JournalRepository.GetByID st tenantId journalEntryId with
    | error e => rw [hg] at h; exact absurd h (by simp)
    | ok ent2 =>
      rw [hg] at h
      simp only [Except.ok.injEq] at h
      subst h
      unfold JournalRepository.GetByID at hg
      cases hf : (visibleEntries st tenantId).find? (fun x => x.id == journalEntryId) with
      | none => rw [hf] at hg; exact absurd hg (by simp)
      | some e2 =>
        rw [hf] at hg
        simp only [Except.ok.injEq] at hg
        subst hg
        have hmem := List.mem_filter.mp (List.mem_of_find?_eq_some hf)
        refine ⟨by simpa using hmem.2, ?_⟩
        intro l hl
        have hl1 := (List.mem_insertionSort lineLe).mp hl
        have hl2 := List.mem_filter.mp hl1
        have hl3 := List.mem_filter.mp hl2.1
        have hany := hl3.2
        simp only [List.any_eq_true, Bool.and_eq_true, beq_iff_eq] at hany
        obtain ⟨er, herMem, herId, herT⟩ := hany
        exact ⟨er, herMem, herId, herT⟩
  · -- ListJournalEntries
    intro req hreq e he
    unfold LedgerService.ListJournalEntries at he
    dsimp only at he
    unfold JournalRepository.List at he
    dsimp only at he
    have h1 := List.mem_of_mem_drop (List.mem_of_mem_take he)
    have h2 := (List.mem_insertionSort entryLe).mp h1
    have h3 := List.mem_dedup.mp h2
    have h4 := (List.mem_filter.mp h3).1
    rw [← hreq]
    exact entriesJoined_tenant st req.tenantId req.accountId e h4
  · -- CreateAccount
    intro req hreq
    rcases createAccount_store st req with hsame | ⟨accountId, hok⟩
    · rw [hsame]
      intro otherTenant _
      exact ⟨rfl, rfl, rfl, rfl⟩
    · rw [hreq] at hok
      exact ca_ok_other_tenants st tenantId _ _ _ hWF hok
  · -- CreateJournalEntry
    intro req fault hreq
    rcases createJournalEntry_store st fault req with hsame | ⟨ps, _, hok⟩
    · rw [hsame]
      intro otherTenant _
      exact ⟨rfl, rfl, rfl, rfl⟩
    · rw [hreq] at hok
      exact cje_ok_other_tenants st tenantId _ _ _ hWF hok

theorem c3_tenant_isolation_witness :
    acctCash.tenantId = 1 ∧
    visibleAccounts (LedgerService.CreateJournalEntry twoAccountStore false
      { tenantId := 1, referenceNumber := "OK-2", description := "", entryDate := 3,
        lines := [ { accountId := 1, debit := "7", credit := "0", description := "" },
                   { accountId := 2, debit := "0", credit := "7", description := "" } ]
      }).1 2 = visibleAccounts twoAccountStore 2 :=
  ⟨(c3_tenant_isolation twoAccountStore 1 (by decide)).1 1 acctCash (by rfl),
   (((c3_tenant_isolation twoAccountStore 1 (by decide)).2.2.2.2.2.2
      { tenantId := 1, referenceNumber := "OK-2", description := "", entryDate := 3,
        lines := [ { accountId := 1, debit := "7", credit := "0", description := "" },
                   { accountId := 2, debit := "0", credit := "7", description := "" } ] }
      false rfl) 2 (by decide)).1⟩
